import Mathlib

/-
  Verification development for the accounting core of the bookkeeping
  platform: chart of accounts, journal posting and validation, balance
  computation, report builders (trial balance, balance sheet, aging)
  and the reversal protocol.

  The embedding is shallow: each service method is translated into a
  Lean function over explicit ledger state.  Money amounts are modelled
  as rationals (the source uses decimal amounts converted to numbers;
  the 0.01 tolerance comparisons are preserved verbatim).  Dates are
  modelled as integers (only ordering of dates matters to the code
  under study).  Database reads become list traversals over the state,
  in the order the rows are stored; `findFirst`, `findMany`, `aggregate`
  and nested `create` calls are translated to `List.find?`, `List.filter`
  and list sums over the same predicates the source passes to Prisma.
  Thrown errors become `Except` results carrying a structured error
  value, one constructor per throw site, each tagged with the error
  taxonomy kind (NotFound / InvalidArgument / Conflict).
-/

namespace Booker

set_option linter.unusedVariables false

/-- Account types, from the AccountType enum. -/
inductive AccountType
  | ASSET
  | LIABILITY
  | EQUITY
  | REVENUE
  | EXPENSE
  deriving DecidableEq, Repr

/-- Journal entry sources, from the JournalSource enum. -/
inductive JournalSource
  | MANUAL
  | INVOICE
  | BILL
  | CUSTOMER_PAYMENT
  | BILL_PAYMENT
  | BANK_IMPORT
  deriving DecidableEq, Repr

/-- An account row: the fields of the Account model that the journal,
balance and report code reads.  Sub-types are abstracted to a numeric
code (only equality on them is used). -/
structure Account where
  id : Nat
  companyId : Nat
  code : String
  type : AccountType
  subType : Nat
  parentId : Option Nat
  isSystemAccount : Bool
  isActive : Bool
  openingBalance : Rat
  deriving DecidableEq, Repr

/-- A journal line: the fields read by validation, balances and reports. -/
structure JournalLine where
  accountId : Nat
  debit : Rat
  credit : Rat
  deriving DecidableEq, Repr

/-- A journal entry row together with its lines. -/
structure JournalEntry where
  id : Nat
  companyId : Nat
  entryNumber : Nat
  date : Int
  source : JournalSource
  sourceId : Option Nat
  isPosted : Bool
  isReversing : Bool
  reversedEntryId : Option Nat
  deriving DecidableEq, Repr

/-- The persisted store: account rows plus journal entries, each entry
paired with its list of lines (a JournalLine belongs to exactly one
entry). -/
structure Ledger where
  accounts : List Account
  entries : List (JournalEntry × List JournalLine)
  deriving DecidableEq, Repr

/-- The error taxonomy of the service layer. -/
inductive ErrKind
  | notFound
  | invalidArgument
  | conflict
  deriving DecidableEq, Repr

/-- One constructor per throw site relevant to the claims, carrying the
data the source interpolates into the thrown message. -/
inductive ApiError
  | unbalancedEntry (totalDebit totalCredit : Rat)
  | lineBothDebitAndCredit
  | lineNeitherDebitNorCredit
  | accountsNotFoundForLines
  | inactiveAccount (code : String)
  | journalEntryNotFound
  | accountNotFound
  | systemAccountNotFound (subType : Nat)
  | circularParentReference
  deriving DecidableEq, Repr

/-- Maps each error to its taxonomy kind: BadRequestError is the
InvalidArgument kind, NotFoundError the NotFound kind. -/
def ApiError.kind : ApiError → ErrKind
  | .unbalancedEntry _ _ => .invalidArgument
  | .lineBothDebitAndCredit => .invalidArgument
  | .lineNeitherDebitNorCredit => .invalidArgument
  | .accountsNotFoundForLines => .invalidArgument
  | .inactiveAccount _ => .invalidArgument
  | .journalEntryNotFound => .notFound
  | .accountNotFound => .notFound
  | .systemAccountNotFound _ => .notFound
  | .circularParentReference => .invalidArgument

instance {e a : Type} [DecidableEq e] [DecidableEq a] : DecidableEq (Except e a) :=
  fun x y =>
    match x, y with
    | .error u, .error v =>
      decidable_of_iff (u = v) ⟨fun h => by rw [h], fun h => by injection h⟩
    | .ok u, .ok v =>
      decidable_of_iff (u = v) ⟨fun h => by rw [h], fun h => by injection h⟩
    | .error _, .ok _ => isFalse (fun h => by injection h)
    | .ok _, .error _ => isFalse (fun h => by injection h)

/-- The tolerance constant 0.01 appearing in the double-entry check. -/
def tolerance : Rat := 1 / 100

/-- Math.abs on rational amounts. -/
def ratAbs (x : Rat) : Rat := if x < 0 then -x else x

/-- Total of the debit column of a line list
(`lines.reduce((sum, line) => sum + (line.debit || 0), 0)`). -/
def totalDebitOf (lines : List JournalLine) : Rat :=
  (lines.map (fun l => l.debit)).sum

/-- Total of the credit column of a line list. -/
def totalCreditOf (lines : List JournalLine) : Rat :=
  (lines.map (fun l => l.credit)).sum

/-- The per-line loop of JournalService.validateDoubleEntry: for each
line in order, first the both-sides check, then the neither-side
check. -/
def checkLines : List JournalLine → Except ApiError Unit
  | [] => .ok ()
  | l :: rest =>
    if l.debit > 0 ∧ l.credit > 0 then .error .lineBothDebitAndCredit
    else if l.debit = 0 ∧ l.credit = 0 then .error .lineNeitherDebitNorCredit
    else checkLines rest

/-- JournalService.validateDoubleEntry: totals are compared first
(throwing with both sums when they differ by 0.01 or more), then each
line is checked in order. -/
def validateDoubleEntry (lines : List JournalLine) : Except ApiError Unit :=
  let totalDebit := totalDebitOf lines
  let totalCredit := totalCreditOf lines
  if ratAbs (totalDebit - totalCredit) ≥ tolerance then
    .error (.unbalancedEntry totalDebit totalCredit)
  else
    checkLines lines

/-- JournalService.validateAccounts: the distinct account ids of the
lines are looked up within the company, failing if any is missing, then
failing on the first inactive account found among them. -/
def validateAccounts (accounts : List Account) (companyId : Nat)
    (lines : List JournalLine) : Except ApiError Unit :=
  let accountIds := (lines.map (fun l => l.accountId)).dedup
  let found := accounts.filter (fun a => a.id ∈ accountIds ∧ a.companyId = companyId)
  if found.length ≠ accountIds.length then .error .accountsNotFoundForLines
  else
    match found.find? (fun a => !a.isActive) with
    | some a => .error (.inactiveAccount a.code)
    | none => .ok ()

/-- Entry-number assignment of the posting paths: the highest existing
entry number of the company (`lastEntry?.entryNumber || 0`) plus one. -/
def nextEntryNumber (entries : List (JournalEntry × List JournalLine))
    (companyId : Nat) : Nat :=
  ((entries.filter (fun e => e.1.companyId = companyId)).map
    (fun e => e.1.entryNumber)).foldr max 0 + 1

/-- Input to createJournalEntry: the validated fields the service
reads.  Line amounts are already defaulted to 0 by the schema layer. -/
structure CreateJournalEntryInput where
  date : Int
  lines : List JournalLine
  deriving DecidableEq, Repr

/-- JournalService.createJournalEntry as a state transformer: double
entry is validated first, then the accounts, then the entry and its
lines are created in one step with the next entry number.  A thrown
validation error leaves the store untouched, since the create happens
last.  `newId` stands for the id the store generates for the new row.
Modelled from the spec: the prisma schema file is not part of the
sources, so the default of the isPosted column on a created entry is
taken from the spec, which defines posting as committing an entry so
its lines count toward balances and has every LedgerEntryPoster-created
entry contribute to reports until voided, giving isPosted = true. -/
def createJournalEntry (st : Ledger) (companyId userId : Nat)
    (input : CreateJournalEntryInput) (newId : Nat) :
    Except ApiError (JournalEntry × List JournalLine) × Ledger :=
  match validateDoubleEntry input.lines with
  | .error e => (.error e, st)
  | .ok () =>
    match validateAccounts st.accounts companyId input.lines with
    | .error e => (.error e, st)
    | .ok () =>
      let entryNumber := nextEntryNumber st.entries companyId
      let entry : JournalEntry :=
        { id := newId, companyId := companyId, entryNumber := entryNumber,
          date := input.date, source := .MANUAL, sourceId := none,
          isPosted := true, isReversing := false, reversedEntryId := none }
      (.ok (entry, input.lines),
        { st with entries := st.entries ++ [(entry, input.lines)] })

/-- Input to createFromTransaction. -/
structure CreateFromTransactionInput where
  date : Int
  source : JournalSource
  sourceId : Nat
  lines : List JournalLine
  deriving DecidableEq, Repr

/-- JournalService.createFromTransaction: validates double entry only
(no account validation), then creates the entry with its lines.  The
isPosted default is modelled from the spec as in createJournalEntry. -/
def createFromTransaction (st : Ledger) (companyId userId : Nat)
    (data : CreateFromTransactionInput) (newId : Nat) :
    Except ApiError (JournalEntry × List JournalLine) × Ledger :=
  match validateDoubleEntry data.lines with
  | .error e => (.error e, st)
  | .ok () =>
    let entryNumber := nextEntryNumber st.entries companyId
    let entry : JournalEntry :=
      { id := newId, companyId := companyId, entryNumber := entryNumber,
        date := data.date, source := data.source, sourceId := some data.sourceId,
        isPosted := true, isReversing := false, reversedEntryId := none }
    (.ok (entry, data.lines),
      { st with entries := st.entries ++ [(entry, data.lines)] })

/-- The double-entry violation condition as the claims state it: the
totals differ by 0.01 or more, or some line has both sides positive, or
some line has neither side positive. -/
def ViolatesDoubleEntry (lines : List JournalLine) : Prop :=
  |totalDebitOf lines - totalCreditOf lines| ≥ tolerance ∨
    (∃ l ∈ lines, l.debit > 0 ∧ l.credit > 0) ∨
    (∃ l ∈ lines, ¬ l.debit > 0 ∧ ¬ l.credit > 0)

/-- Nonnegativity of line amounts, established upstream by the request
schema (z.number().min(0) on debit and credit). -/
def LinesNonneg (lines : List JournalLine) : Prop :=
  ∀ l ∈ lines, 0 ≤ l.debit ∧ 0 ≤ l.credit

instance (lines : List JournalLine) : Decidable (LinesNonneg lines) :=
  decidable_of_iff (∀ l ∈ lines, 0 ≤ l.debit ∧ 0 ≤ l.credit) Iff.rfl

/-- Debit-normal test used across the services:
['ASSET', 'EXPENSE'].includes(type). -/
def isDebitNormal (t : AccountType) : Bool :=
  t == .ASSET || t == .EXPENSE

/-- Lines of posted entries dated on or before asOf, in store order:
the rows the balance aggregate query ranges over. -/
def postedLinesThrough (st : Ledger) (asOf : Int) : List JournalLine :=
  (st.entries.filter (fun e => e.1.isPosted && decide (e.1.date ≤ asOf))).flatMap
    (fun e => e.2)

/-- Opening balance read of the balance calculator: the stored opening
balance of the account row, or 0 when the account row is absent. -/
def storedOpeningBalance (st : Ledger) (accountId : Nat) : Rat :=
  match st.accounts.find? (fun a => a.id == accountId) with
  | some a => a.openingBalance
  | none => 0

/-- ReportService.calculateAccountBalanceAsOf: opening balance plus the
debit/credit aggregate over lines of posted entries dated on or before
asOf for the account, combined per the normal-balance convention of the
given account type. -/
def calculateAccountBalanceAsOf (st : Ledger) (accountId : Nat)
    (type : AccountType) (asOf : Int) : Rat :=
  let openingBalance := storedOpeningBalance st accountId
  let ls := (postedLinesThrough st asOf).filter (fun l => l.accountId == accountId)
  let debits := totalDebitOf ls
  let credits := totalCreditOf ls
  if isDebitNormal type then openingBalance + debits - credits
  else openingBalance + credits - debits

/-- The sign-adjusted amount of one line under a normal-balance
convention: debit minus credit for debit-normal accounts, credit minus
debit otherwise. -/
def signedAmount (dn : Bool) (l : JournalLine) : Rat :=
  if dn then l.debit - l.credit else l.credit - l.debit

/-- The claim-side balance formula, written from the words of the spec:
the stored opening balance plus the sign-adjusted sum, entry by entry,
over the account lines of posted entries dated on or before asOf. -/
def specBalanceAsOf (st : Ledger) (a : Account) (asOf : Int) : Rat :=
  a.openingBalance +
    ((st.entries.filter (fun e => e.1.isPosted && decide (e.1.date ≤ asOf))).map
      (fun e => ((e.2.filter (fun l => l.accountId == a.id)).map
        (signedAmount (isDebitNormal a.type))).sum)).sum

/-- One row of the trial balance: the computed balance reclassified
into a debit or a credit column per the normal-balance convention. -/
structure TrialBalanceRow where
  id : Nat
  code : String
  type : AccountType
  debit : Rat
  credit : Rat
  deriving DecidableEq, Repr

/-- The trial balance report shape. -/
structure TrialBalanceReport where
  accounts : List TrialBalanceRow
  totalDebits : Rat
  totalCredits : Rat
  isBalanced : Bool
  deriving DecidableEq, Repr

/-- The row the trial balance builds for one account: the balance as
of the date, reclassified into the debit or credit column per the
normal-balance convention (a debit-normal account with a negative
balance shows its absolute value under credit, and vice versa). -/
def trialBalanceRowOf (st : Ledger) (asOf : Int) (a : Account) : TrialBalanceRow :=
  let balance := calculateAccountBalanceAsOf st a.id a.type asOf
  let dn := isDebitNormal a.type
  { id := a.id, code := a.code, type := a.type,
    debit := if dn = true ∧ 0 < balance then balance
      else if dn = false ∧ balance < 0 then -balance else 0,
    credit := if dn = false ∧ 0 < balance then balance
      else if dn = true ∧ balance < 0 then -balance else 0 }

/-- ReportService.getTrialBalance: every active account of the company
gets a reclassified balance row, zero rows are dropped, and isBalanced
compares the column totals within 0.01.  The order-by on the account
code is omitted: the totals and isBalanced are sums over the rows and
do not depend on row order. -/
def getTrialBalance (st : Ledger) (companyId : Nat) (asOf : Int) :
    TrialBalanceReport :=
  let accounts := st.accounts.filter (fun a => a.companyId == companyId && a.isActive)
  let balances := accounts.map (trialBalanceRowOf st asOf)
  let nonZeroBalances := balances.filter (fun b =>
    decide (0 < b.debit) || decide (0 < b.credit))
  let totalDebits := (nonZeroBalances.map (fun b => b.debit)).sum
  let totalCredits := (nonZeroBalances.map (fun b => b.credit)).sum
  { accounts := nonZeroBalances,
    totalDebits := totalDebits,
    totalCredits := totalCredits,
    isBalanced := decide (ratAbs (totalDebits - totalCredits) < tolerance) }

/-- Line payload of the reversing entry: every line of the original
with debit and credit swapped, same account and tags. -/
def swapLines (ls : List JournalLine) : List JournalLine :=
  ls.map (fun l => { accountId := l.accountId, debit := l.credit, credit := l.debit })

/-- The reversing entry row reverseJournalEntry creates: MANUAL source,
isReversing set, reversedEntryId pointing at the original.  The
isPosted default is modelled from the spec as in createJournalEntry
(the prisma schema file is not among the sources). -/
def mkReversingEntry (st : Ledger) (companyId newId : Nat) (reverseDate : Int)
    (origId : Nat) : JournalEntry :=
  { id := newId, companyId := companyId,
    entryNumber := nextEntryNumber st.entries companyId,
    date := reverseDate, source := .MANUAL, sourceId := none,
    isPosted := true, isReversing := true, reversedEntryId := some origId }

/-- JournalService.reverseJournalEntry: loads the entry with its lines
within the company (NotFound otherwise), allocates the next entry
number, and creates a new entry dated reverseDate whose lines have
debit and credit swapped; the original entry is left untouched.  The
source defaults reverseDate to the current time when absent; the model
takes the resolved date as a parameter. -/
def reverseJournalEntry (st : Ledger) (companyId userId entryId : Nat)
    (newId : Nat) (reverseDate : Int) :
    Except ApiError (JournalEntry × List JournalLine) × Ledger :=
  match st.entries.find? (fun p => p.1.id == entryId && p.1.companyId == companyId) with
  | none => (.error .journalEntryNotFound, st)
  | some p =>
    let entry := mkReversingEntry st companyId newId reverseDate p.1.id
    (.ok (entry, swapLines p.2),
      { st with entries := st.entries ++ [(entry, swapLines p.2)] })

/-- The account-filtered aggregate over a list of entry rows: the sum
of f over the lines of posted entries dated on or before d that hit
the account. -/
def entriesDelta (es : List (JournalEntry × List JournalLine)) (aid : Nat)
    (d : Int) (f : JournalLine → Rat) : Rat :=
  ((((es.filter (fun e => e.1.isPosted && decide (e.1.date ≤ d))).flatMap
    (fun e => e.2)).filter (fun l => l.accountId == aid)).map f).sum

/-- One account row of a balance report: the account with its computed
balance. -/
structure ReportAccount where
  id : Nat
  code : String
  type : AccountType
  balance : Rat
  deriving DecidableEq, Repr

/-- ReportService.getAccountBalancesAsOf: the active accounts of the
company with the given type, each carrying its balance as of the date.
The order-by on the code is omitted; only sums of the rows are at
stake in the claims. -/
def getAccountBalancesAsOf (st : Ledger) (companyId : Nat) (ty : AccountType)
    (asOf : Int) : List ReportAccount :=
  (st.accounts.filter (fun a =>
      a.companyId == companyId && (a.type == ty) && a.isActive)).map
    (fun a => { id := a.id, code := a.code, type := a.type,
                balance := calculateAccountBalanceAsOf st a.id a.type asOf })

/-- ReportService.calculateRetainedEarnings: revenue to date minus
expenses to date, where each side is a debit/credit aggregate over the
lines of posted entries dated on or before asOf whose account belongs
to the company and has the REVENUE (resp. EXPENSE) type. -/
def calculateRetainedEarnings (st : Ledger) (companyId : Nat) (asOf : Int) : Rat :=
  let revenueLines := (postedLinesThrough st asOf).filter (fun l =>
    st.accounts.any (fun a =>
      a.id == l.accountId && a.companyId == companyId &&
        (a.type == AccountType.REVENUE)))
  let expenseLines := (postedLinesThrough st asOf).filter (fun l =>
    st.accounts.any (fun a =>
      a.id == l.accountId && a.companyId == companyId &&
        (a.type == AccountType.EXPENSE)))
  let revenue := totalCreditOf revenueLines - totalDebitOf revenueLines
  let expenses := totalDebitOf expenseLines - totalCreditOf expenseLines
  revenue - expenses

/-- The balance sheet totals: the per-section account lists and the
compare-period merging of the source are omitted, the claims concern
the totals.  totalEquity adds retainedEarnings to the equity account
balances, as the source does. -/
structure BalanceSheetReport where
  totalAssets : Rat
  totalLiabilities : Rat
  equityAccountsTotal : Rat
  retainedEarnings : Rat
  totalEquity : Rat
  totalLiabilitiesAndEquity : Rat
  deriving DecidableEq, Repr

/-- ReportService.getBalanceSheet: ASSET, LIABILITY and EQUITY
balances as of the date plus the derived retained earnings. -/
def getBalanceSheet (st : Ledger) (companyId : Nat) (asOf : Int) :
    BalanceSheetReport :=
  let assets := getAccountBalancesAsOf st companyId .ASSET asOf
  let liabilities := getAccountBalancesAsOf st companyId .LIABILITY asOf
  let equity := getAccountBalancesAsOf st companyId .EQUITY asOf
  let retainedEarnings := calculateRetainedEarnings st companyId asOf
  let totalAssets := (assets.map (fun a => a.balance)).sum
  let totalLiabilities := (liabilities.map (fun a => a.balance)).sum
  let equityAccountsTotal := (equity.map (fun a => a.balance)).sum
  let totalEquity := equityAccountsTotal + retainedEarnings
  { totalAssets := totalAssets,
    totalLiabilities := totalLiabilities,
    equityAccountsTotal := equityAccountsTotal,
    retainedEarnings := retainedEarnings,
    totalEquity := totalEquity,
    totalLiabilitiesAndEquity := totalLiabilities + totalEquity }

/-- The loop of ReportService.getBucketIndex over positive daysOverdue:
the first period boundary at or above daysOverdue selects bucket i+1,
and falling past every boundary selects the overflow index
periods.length + 1. -/
def bucketIndexLoop (daysOverdue : Int) : List Int → Nat
  | [] => 1
  | p :: ps => if daysOverdue ≤ p then 1 else 1 + bucketIndexLoop daysOverdue ps

/-- ReportService.getBucketIndex: zero or negative daysOverdue is the
Current bucket 0, otherwise the loop runs over the period list. -/
def getBucketIndex (daysOverdue : Int) (periods : List Int) : Nat :=
  if daysOverdue ≤ 0 then 0 else bucketIndexLoop daysOverdue periods

/-- The period labels of ReportService.buildAgingBuckets: the i-th
period gets the label from the previous boundary plus one to its own
boundary.  prev carries periods[i-1] through the loop, starting from 0
so that the first label starts at 1 as in the source. -/
def agingPeriodLabels (prev : Int) : List Int → List String
  | [] => []
  | p :: ps =>
    (toString (prev + 1) ++ "-" ++ toString p ++ " days") ::
      agingPeriodLabels p ps

/-- ReportService.buildAgingBuckets, reduced to the bucket labels: the
Current bucket, one bucket per period, and the overflow bucket past
the last boundary.  The amount and count accumulators of the source
start at zero and are not part of the assignment claims. -/
def buildAgingBuckets (periods : List Int) : List String :=
  "Current" ::
    (agingPeriodLabels 0 periods ++
      ["Over " ++ toString (periods.getLastD 0) ++ " days"])

/-- One iteration of the circular-reference while loop inside
AccountService.updateAccount: the loop ends when the current account
has no parent (chain root) or the parent id is not found (break),
reports the circular-reference error when the parent id is the account
being updated, and otherwise continues at the parent row. -/
inductive WalkStep
  | done
  | cycleErr
  | next (a : Account)
  deriving DecidableEq, Repr

def walkStep (accounts : List Account) (accountId : Nat) (cur : Account) :
    WalkStep :=
  match cur.parentId with
  | none => .done
  | some pid =>
    if pid = accountId then .cycleErr
    else
      match accounts.find? (fun a => a.id == pid) with
      | none => .done
      | some b => .next b

/-- The while loop of the cycle check, instrumented with an iteration
budget; none means the budget ran out with the loop still going.  The
source loop itself carries no bound at all. -/
def walkParentChain (accounts : List Account) (accountId : Nat) :
    Nat → Account → Option (Except ApiError Unit)
  | 0, _ => none
  | fuel + 1, cur =>
    match walkStep accounts accountId cur with
    | .done => some (.ok ())
    | .cycleErr => some (.error .circularParentReference)
    | .next a => walkParentChain accounts accountId fuel a

/-- A corrupted chart whose accounts 2 and 3 form a parent cycle that
does not pass through account 1. -/
def cycleChart : List Account :=
  [⟨1, 1, "A", .ASSET, 0, none, false, true, 0⟩,
   ⟨2, 1, "B", .ASSET, 0, some 3, false, true, 0⟩,
   ⟨3, 1, "C", .ASSET, 0, some 2, false, true, 0⟩]

/-- The proposed parent chain leads back to the account being updated:
either the current row points at it directly, or it continues through
a found parent row from which the chain leads back. -/
inductive ChainLeadsBack (accounts : List Account) (accountId : Nat) :
    Account → Prop
  | hit : ∀ cur : Account, cur.parentId = some accountId →
      ChainLeadsBack accounts accountId cur
  | step : ∀ (cur : Account) (pid : Nat) (b : Account),
      cur.parentId = some pid → pid ≠ accountId →
      accounts.find? (fun a => a.id == pid) = some b →
      ChainLeadsBack accounts accountId b →
      ChainLeadsBack accounts accountId cur

/-- AccountService.getSystemAccount: the first stored account of the
company with the sub-type and the system flag; NotFound when there is
none.  The source places no isActive condition on the query. -/
def getSystemAccount (st : Ledger) (companyId : Nat) (subType : Nat) :
    Except ApiError Account :=
  match st.accounts.find? (fun a =>
    a.companyId == companyId && (a.subType == subType) && a.isSystemAccount) with
  | none => .error (.systemAccountNotFound subType)
  | some a => .ok a

lemma ratAbs_eq_abs (x : Rat) : ratAbs x = |x| := by
  unfold ratAbs
  rcases lt_or_ge x 0 with h | h
  · rw [if_pos h, abs_of_neg h]
  · rw [if_neg (not_lt.mpr h), abs_of_nonneg h]

lemma checkLines_error_of_bad {lines : List JournalLine}
    (hnn : LinesNonneg lines)
    (h : (∃ l ∈ lines, l.debit > 0 ∧ l.credit > 0) ∨
      (∃ l ∈ lines, ¬ l.debit > 0 ∧ ¬ l.credit > 0)) :
    ∃ e, checkLines lines = .error e ∧ e.kind = .invalidArgument := by
  induction lines with
  | nil => rcases h with ⟨l, hl, _⟩ | ⟨l, hl, _⟩ <;> cases hl
  | cons l rest ih =>
    by_cases hboth : l.debit > 0 ∧ l.credit > 0
    · exact ⟨.lineBothDebitAndCredit, by simp [checkLines, hboth], rfl⟩
    · by_cases hnone : l.debit = 0 ∧ l.credit = 0
      · exact ⟨.lineNeitherDebitNorCredit, by simp [checkLines, hboth, hnone], rfl⟩
      · have hrest : (∃ x ∈ rest, x.debit > 0 ∧ x.credit > 0) ∨
            (∃ x ∈ rest, ¬ x.debit > 0 ∧ ¬ x.credit > 0) := by
          rcases h with ⟨x, hx, hxp⟩ | ⟨x, hx, hxp⟩
          · rcases List.mem_cons.mp hx with rfl | hx
            · exact absurd hxp hboth
            · exact Or.inl ⟨x, hx, hxp⟩
          · rcases List.mem_cons.mp hx with rfl | hx
            · have hd : x.debit = 0 :=
                le_antisymm (not_lt.mp hxp.1) (hnn x (List.mem_cons_self x rest)).1
              have hc : x.credit = 0 :=
                le_antisymm (not_lt.mp hxp.2) (hnn x (List.mem_cons_self x rest)).2
              exact absurd ⟨hd, hc⟩ hnone
            · exact Or.inr ⟨x, hx, hxp⟩
        obtain ⟨e, he, hk⟩ := ih (fun x hx => hnn x (List.mem_cons_of_mem l hx)) hrest
        exact ⟨e, by simp [checkLines, hboth, hnone, he], hk⟩

lemma validateDoubleEntry_error_of_violation {lines : List JournalLine}
    (hnn : LinesNonneg lines) (hviol : ViolatesDoubleEntry lines) :
    ∃ e, validateDoubleEntry lines = .error e ∧ e.kind = .invalidArgument := by
  by_cases hsum : ratAbs (totalDebitOf lines - totalCreditOf lines) ≥ tolerance
  · exact ⟨.unbalancedEntry (totalDebitOf lines) (totalCreditOf lines),
      by simp [validateDoubleEntry, hsum], rfl⟩
  · rcases hviol with h | h | h
    · rw [← ratAbs_eq_abs] at h
      exact absurd h hsum
    · obtain ⟨e, he, hk⟩ := checkLines_error_of_bad hnn (Or.inl h)
      exact ⟨e, by simp [validateDoubleEntry, hsum, he], hk⟩
    · obtain ⟨e, he, hk⟩ := checkLines_error_of_bad hnn (Or.inr h)
      exact ⟨e, by simp [validateDoubleEntry, hsum, he], hk⟩

lemma createJournalEntry_of_invalid_double_entry {st : Ledger}
    {companyId userId newId : Nat} {input : CreateJournalEntryInput}
    {e : ApiError} (h : validateDoubleEntry input.lines = .error e) :
    createJournalEntry st companyId userId input newId = (.error e, st) := by
  unfold createJournalEntry
  rw [h]

/-- C1: for every posting request whose lines violate double entry
(totals differing by 0.01 or more, or a line with both sides positive,
or a line with neither side positive, amounts being nonnegative per the
request schema), createJournalEntry fails with an InvalidArgument-kind
error and returns the store unchanged: no entry and no lines are
persisted. -/
theorem claim_C1_invalid_posting_rejected_and_nothing_persisted
    (st : Ledger) (companyId userId newId : Nat)
    (input : CreateJournalEntryInput)
    (hnn : LinesNonneg input.lines)
    (hviol : ViolatesDoubleEntry input.lines) :
    ∃ e : ApiError,
      createJournalEntry st companyId userId input newId = (.error e, st) ∧
      e.kind = .invalidArgument := by
  obtain ⟨e, he, hk⟩ := validateDoubleEntry_error_of_violation hnn hviol
  exact ⟨e, createJournalEntry_of_invalid_double_entry he, hk⟩

/-- Witness for C1: a concrete unbalanced request (debit 5 against
credit 3) is rejected with an InvalidArgument-kind error and leaves an
empty store empty. -/
theorem claim_C1_witness :
    ∃ e : ApiError,
      createJournalEntry ⟨[], []⟩ 1 1 ⟨0, [⟨1, 5, 0⟩, ⟨2, 0, 3⟩]⟩ 7 =
        (.error e, ⟨[], []⟩) ∧ e.kind = .invalidArgument :=
  claim_C1_invalid_posting_rejected_and_nothing_persisted ⟨[], []⟩ 1 1 7
    ⟨0, [⟨1, 5, 0⟩, ⟨2, 0, 3⟩]⟩
    (by decide)
    (Or.inl (by
      rw [← ratAbs_eq_abs]
      with_unfolding_all decide))

lemma sum_map_sub {α : Type} (l : List α) (f g : α → Rat) :
    (l.map (fun x => f x - g x)).sum = (l.map f).sum - (l.map g).sum := by
  induction l with
  | nil => simp
  | cons x xs ih => simp only [List.map_cons, List.sum_cons, ih]; ring

lemma sum_map_flatten_map {α β : Type} (l : List α) (f : α → List β) (g : β → Rat) :
    ((l.flatMap f).map g).sum = (l.map (fun a => ((f a).map g).sum)).sum := by
  induction l with
  | nil => simp
  | cons x xs ih => simp [List.flatMap, ih, Function.comp_def]

lemma sum_map_signedAmount_true (ls : List JournalLine) :
    (ls.map (signedAmount true)).sum =
      (ls.map (fun l => l.debit)).sum - (ls.map (fun l => l.credit)).sum := by
  induction ls with
  | nil => simp
  | cons x xs ih =>
    have hx : signedAmount true x = x.debit - x.credit := rfl
    simp only [List.map_cons, List.sum_cons, hx, ih]
    ring

lemma sum_map_signedAmount_false (ls : List JournalLine) :
    (ls.map (signedAmount false)).sum =
      (ls.map (fun l => l.credit)).sum - (ls.map (fun l => l.debit)).sum := by
  induction ls with
  | nil => simp
  | cons x xs ih =>
    have hx : signedAmount false x = x.credit - x.debit := rfl
    simp only [List.map_cons, List.sum_cons, hx, ih]
    ring

lemma filter_flatMap_comm {α β : Type} (l : List α) (f : α → List β) (p : β → Bool) :
    (l.flatMap f).filter p = l.flatMap (fun a => (f a).filter p) := by
  induction l with
  | nil => simp
  | cons x xs ih => simp [List.flatMap, List.filter_append, ih, Function.comp_def]

/-- Refinement bridge: the balance the code computes equals the
claim-side formula, whenever the account row looked up for the opening
balance is the account the type and id came from. -/
lemma calcBalance_eq_specBalance (st : Ledger) (a : Account) (asOf : Int)
    (hfind : st.accounts.find? (fun x => x.id == a.id) = some a) :
    calculateAccountBalanceAsOf st a.id a.type asOf = specBalanceAsOf st a asOf := by
  unfold calculateAccountBalanceAsOf specBalanceAsOf storedOpeningBalance postedLinesThrough
  rw [hfind]
  have hbind : ∀ f : JournalLine → Rat,
      ((((st.entries.filter (fun e => e.1.isPosted && decide (e.1.date ≤ asOf))).flatMap
          (fun e => e.2)).filter (fun l => l.accountId == a.id)).map f).sum =
      ((st.entries.filter (fun e => e.1.isPosted && decide (e.1.date ≤ asOf))).map
        (fun e => (((e.2.filter (fun l => l.accountId == a.id))).map f).sum)).sum := by
    intro f
    rw [filter_flatMap_comm, sum_map_flatten_map]
  rcases hdn : isDebitNormal a.type with _ | _
  · simp only [hdn, Bool.false_eq_true, if_false]
    rw [totalDebitOf, totalCreditOf, hbind (fun l => l.debit), hbind (fun l => l.credit)]
    have hcong :
        ((st.entries.filter (fun e => e.1.isPosted && decide (e.1.date ≤ asOf))).map
          (fun e => ((e.2.filter (fun l => l.accountId == a.id)).map
            (signedAmount false)).sum)) =
        ((st.entries.filter (fun e => e.1.isPosted && decide (e.1.date ≤ asOf))).map
          (fun e =>
            ((e.2.filter (fun l => l.accountId == a.id)).map (fun l => l.credit)).sum -
            ((e.2.filter (fun l => l.accountId == a.id)).map (fun l => l.debit)).sum)) :=
      List.map_congr_left (fun e _ => sum_map_signedAmount_false _)
    rw [hcong, sum_map_sub]
    ring
  · simp only [hdn, if_true]
    rw [totalDebitOf, totalCreditOf, hbind (fun l => l.debit), hbind (fun l => l.credit)]
    have hcong :
        ((st.entries.filter (fun e => e.1.isPosted && decide (e.1.date ≤ asOf))).map
          (fun e => ((e.2.filter (fun l => l.accountId == a.id)).map
            (signedAmount true)).sum)) =
        ((st.entries.filter (fun e => e.1.isPosted && decide (e.1.date ≤ asOf))).map
          (fun e =>
            ((e.2.filter (fun l => l.accountId == a.id)).map (fun l => l.debit)).sum -
            ((e.2.filter (fun l => l.accountId == a.id)).map (fun l => l.credit)).sum)) :=
      List.map_congr_left (fun e _ => sum_map_signedAmount_true _)
    rw [hcong, sum_map_sub]
    ring

/-- C2: the balance the code computes for an account as of a date is
the stored opening balance plus the sign-adjusted, entry-by-entry sum
over the account lines of posted entries dated on or before the date
(debits increase ASSET and EXPENSE accounts, credits increase the
rest); and an entry that is not posted (voided) contributes nothing:
adding it to the store leaves the computed balance unchanged. -/
theorem claim_C2_balance_as_of_formula (st : Ledger) (a : Account) (asOf : Int)
    (hfind : st.accounts.find? (fun x => x.id == a.id) = some a) :
    calculateAccountBalanceAsOf st a.id a.type asOf = specBalanceAsOf st a asOf ∧
    (∀ E : JournalEntry, ∀ Ls : List JournalLine, E.isPosted = false →
      calculateAccountBalanceAsOf ⟨st.accounts, (E, Ls) :: st.entries⟩
          a.id a.type asOf =
        calculateAccountBalanceAsOf st a.id a.type asOf) := by
  refine ⟨calcBalance_eq_specBalance st a asOf hfind, ?_⟩
  intro E Ls hE
  unfold calculateAccountBalanceAsOf storedOpeningBalance postedLinesThrough
  simp [List.filter_cons, hE]

/-- Witness for C2: one asset account with opening balance 10 and one
posted entry debiting it 5; both parts of the theorem hold at this
store. -/
theorem claim_C2_witness :
    calculateAccountBalanceAsOf
        ⟨[⟨1, 1, "1000", .ASSET, 0, none, false, true, 10⟩],
         [(⟨4, 1, 1, 3, .MANUAL, none, true, false, none⟩, [⟨1, 5, 0⟩, ⟨2, 0, 5⟩])]⟩
        1 .ASSET 9 =
      specBalanceAsOf
        ⟨[⟨1, 1, "1000", .ASSET, 0, none, false, true, 10⟩],
         [(⟨4, 1, 1, 3, .MANUAL, none, true, false, none⟩, [⟨1, 5, 0⟩, ⟨2, 0, 5⟩])]⟩
        ⟨1, 1, "1000", .ASSET, 0, none, false, true, 10⟩ 9 :=
  (claim_C2_balance_as_of_formula
    ⟨[⟨1, 1, "1000", .ASSET, 0, none, false, true, 10⟩],
     [(⟨4, 1, 1, 3, .MANUAL, none, true, false, none⟩, [⟨1, 5, 0⟩, ⟨2, 0, 5⟩])]⟩
    ⟨1, 1, "1000", .ASSET, 0, none, false, true, 10⟩ 9 (by rfl)).1

lemma createFromTransaction_of_invalid_double_entry {st : Ledger}
    {companyId userId newId : Nat} {data : CreateFromTransactionInput}
    {e : ApiError} (h : validateDoubleEntry data.lines = .error e) :
    createFromTransaction st companyId userId data newId = (.error e, st) := by
  unfold createFromTransaction
  rw [h]

/-- C3 counterexample: with an empty chart every account reference is
invalid, so by the claim the account check (a) must produce the
reported error; but on an input that is also unbalanced,
createJournalEntry reports the sums error of check (c) instead, and
createFromTransaction never runs the account check at all: on a
balanced input whose accounts do not exist it succeeds and creates the
entry. -/
theorem claim_C3_counterexample :
    validateAccounts ([] : List Account) 1 [⟨99, 5, 0⟩, ⟨98, 0, 3⟩] =
        .error .accountsNotFoundForLines ∧
    createJournalEntry ⟨[], []⟩ 1 1 ⟨0, [⟨99, 5, 0⟩, ⟨98, 0, 3⟩]⟩ 7 =
        (.error (.unbalancedEntry 5 3), ⟨[], []⟩) ∧
    validateAccounts ([] : List Account) 1 [⟨99, 5, 0⟩, ⟨98, 0, 5⟩] =
        .error .accountsNotFoundForLines ∧
    (createFromTransaction ⟨[], []⟩ 1 1 ⟨0, .INVOICE, 5, [⟨99, 5, 0⟩, ⟨98, 0, 5⟩]⟩ 8).1 =
      .ok (⟨8, 1, 1, 0, .INVOICE, some 5, true, false, none⟩, [⟨99, 5, 0⟩, ⟨98, 0, 5⟩]) := by
  refine ⟨?_, ?_, ?_, ?_⟩ <;> with_unfolding_all decide

/-- C3 amended: the validations of manual posting run in the code
order sums first, then per-line shape, then accounts: when the totals
differ by 0.01 or more the reported error is the InvalidArgument
carrying both sums, whatever else is wrong; when the totals are within
tolerance a bad line is reported next; the account check runs only
after the whole double-entry validation passes; and posting from an
external transaction runs only the double-entry validation, erroring
exactly when it does, with no account validation on that path. -/
theorem claim_C3_validation_order_amended
    (st : Ledger) (companyId userId newId : Nat)
    (input : CreateJournalEntryInput) :
    (ratAbs (totalDebitOf input.lines - totalCreditOf input.lines) ≥ tolerance →
      createJournalEntry st companyId userId input newId =
        (.error (.unbalancedEntry (totalDebitOf input.lines)
          (totalCreditOf input.lines)), st)) ∧
    (∀ e, ratAbs (totalDebitOf input.lines - totalCreditOf input.lines) < tolerance →
      checkLines input.lines = .error e →
      createJournalEntry st companyId userId input newId = (.error e, st)) ∧
    (∀ e, validateDoubleEntry input.lines = .ok () →
      validateAccounts st.accounts companyId input.lines = .error e →
      createJournalEntry st companyId userId input newId = (.error e, st)) ∧
    (∀ data : CreateFromTransactionInput, ∀ e : ApiError,
      createFromTransaction st companyId userId data newId = (.error e, st) ↔
        validateDoubleEntry data.lines = .error e) := by
  refine ⟨?_, ?_, ?_, ?_⟩
  · intro h
    exact createJournalEntry_of_invalid_double_entry (by simp [validateDoubleEntry, h])
  · intro e hlt hcl
    exact createJournalEntry_of_invalid_double_entry
      (by simp [validateDoubleEntry, not_le.mpr hlt, hcl])
  · intro e hok herr
    unfold createJournalEntry
    rw [hok, herr]
  · intro data e
    cases hv : validateDoubleEntry data.lines with
    | error e2 =>
      rw [createFromTransaction_of_invalid_double_entry hv]
      simp [Prod.ext_iff]
    | ok u =>
      cases u
      unfold createFromTransaction
      rw [hv]
      simp [Prod.ext_iff]

/-- Witness for the amended C3: the three manual-posting branches of
the theorem at concrete inputs, with each premise discharged by
evaluation. -/
theorem claim_C3_witness :
    createJournalEntry ⟨[], []⟩ 1 1 ⟨0, [⟨1, 5, 0⟩, ⟨2, 0, 3⟩]⟩ 7 =
        (.error (.unbalancedEntry (totalDebitOf [⟨1, 5, 0⟩, ⟨2, 0, 3⟩])
          (totalCreditOf [⟨1, 5, 0⟩, ⟨2, 0, 3⟩])), ⟨[], []⟩) ∧
    createJournalEntry ⟨[], []⟩ 1 1 ⟨0, [⟨1, 2, 2⟩, ⟨2, 2, 2⟩]⟩ 7 =
        (.error .lineBothDebitAndCredit, ⟨[], []⟩) ∧
    createJournalEntry ⟨[], []⟩ 1 1 ⟨0, [⟨1, 5, 0⟩, ⟨2, 0, 5⟩]⟩ 7 =
        (.error .accountsNotFoundForLines, ⟨[], []⟩) ∧
    (createFromTransaction ⟨[], []⟩ 1 1 ⟨0, .BILL, 9, [⟨1, 5, 0⟩, ⟨2, 0, 3⟩]⟩ 7 =
        (.error (.unbalancedEntry 5 3), ⟨[], []⟩)) :=
  ⟨(claim_C3_validation_order_amended ⟨[], []⟩ 1 1 7 ⟨0, [⟨1, 5, 0⟩, ⟨2, 0, 3⟩]⟩).1
      (by with_unfolding_all decide),
   (claim_C3_validation_order_amended ⟨[], []⟩ 1 1 7
      ⟨0, [⟨1, 2, 2⟩, ⟨2, 2, 2⟩]⟩).2.1 .lineBothDebitAndCredit
      (by with_unfolding_all decide) (by with_unfolding_all decide),
   (claim_C3_validation_order_amended ⟨[], []⟩ 1 1 7
      ⟨0, [⟨1, 5, 0⟩, ⟨2, 0, 5⟩]⟩).2.2.1 .accountsNotFoundForLines
      (by with_unfolding_all decide) (by with_unfolding_all decide),
   ((claim_C3_validation_order_amended ⟨[], []⟩ 1 1 7
      ⟨0, [⟨1, 5, 0⟩, ⟨2, 0, 3⟩]⟩).2.2.2 ⟨0, .BILL, 9, [⟨1, 5, 0⟩, ⟨2, 0, 3⟩]⟩
      (.unbalancedEntry 5 3)).mpr (by with_unfolding_all decide)⟩

lemma getTrialBalance_totalDebits (st : Ledger) (companyId : Nat) (asOf : Int) :
    (getTrialBalance st companyId asOf).totalDebits =
      ((((st.accounts.filter (fun a => a.companyId == companyId && a.isActive)).map
        (trialBalanceRowOf st asOf)).filter (fun b =>
          decide (0 < b.debit) || decide (0 < b.credit))).map (fun b => b.debit)).sum := rfl

lemma getTrialBalance_totalCredits (st : Ledger) (companyId : Nat) (asOf : Int) :
    (getTrialBalance st companyId asOf).totalCredits =
      ((((st.accounts.filter (fun a => a.companyId == companyId && a.isActive)).map
        (trialBalanceRowOf st asOf)).filter (fun b =>
          decide (0 < b.debit) || decide (0 < b.credit))).map (fun b => b.credit)).sum := rfl

lemma getTrialBalance_isBalanced (st : Ledger) (companyId : Nat) (asOf : Int) :
    (getTrialBalance st companyId asOf).isBalanced =
      decide (ratAbs ((getTrialBalance st companyId asOf).totalDebits -
        (getTrialBalance st companyId asOf).totalCredits) < tolerance) := rfl

lemma sum_filter_or {α : Type} (p q : α → Bool) (f : α → Rat) (l : List α)
    (hdisj : ∀ x ∈ l, ¬(p x = true ∧ q x = true)) :
    ((l.filter (fun x => p x || q x)).map f).sum =
      ((l.filter p).map f).sum + ((l.filter q).map f).sum := by
  induction l with
  | nil => simp
  | cons x xs ih =>
    have hx := hdisj x (List.mem_cons_self x xs)
    have ihx := ih (fun y hy => hdisj y (List.mem_cons_of_mem x hy))
    rcases hp : p x with _ | _ <;> rcases hq : q x with _ | _
    · simp only [List.filter_cons, hp, hq, Bool.or_self, Bool.false_eq_true, if_false]
      exact ihx
    · simp only [List.filter_cons, hp, hq, Bool.false_or, Bool.false_eq_true, if_false,
        if_true, List.map_cons, List.sum_cons, ihx]
      ring
    · simp only [List.filter_cons, hp, hq, Bool.or_false, Bool.false_eq_true, if_false,
        if_true, List.map_cons, List.sum_cons, ihx]
      ring
    · exact absurd ⟨hp, hq⟩ hx

/-- Partitioning a sum over lines by the account each line belongs to:
with pairwise distinct account ids, summing a line function account by
account equals summing it over the lines whose account is listed. -/
lemma sum_over_accounts_partition (accs : List Account)
    (hnodup : (accs.map (fun a => a.id)).Nodup)
    (ls : List JournalLine) (f : JournalLine → Rat) :
    (accs.map (fun a => ((ls.filter (fun l => l.accountId == a.id)).map f).sum)).sum =
      ((ls.filter (fun l => accs.any (fun a => a.id == l.accountId))).map f).sum := by
  induction accs with
  | nil => simp
  | cons a as ih =>
    have hnd := hnodup
    rw [List.map_cons, List.nodup_cons] at hnd
    have hsplit :
        ((ls.filter (fun l => (a :: as).any (fun b => b.id == l.accountId))).map f).sum =
          ((ls.filter (fun l => a.id == l.accountId)).map f).sum +
            ((ls.filter (fun l => as.any (fun b => b.id == l.accountId))).map f).sum := by
      have hdisj : ∀ l ∈ ls,
          ¬((a.id == l.accountId) = true ∧
            (as.any (fun b => b.id == l.accountId)) = true) := by
        intro l _ hcl
        obtain ⟨h1, h2⟩ := hcl
        obtain ⟨b, hb, hbid⟩ := List.any_eq_true.mp h2
        have hba : b.id = a.id := by
          have e1 : a.id = l.accountId := eq_of_beq h1
          have e2 : b.id = l.accountId := eq_of_beq hbid
          rw [e1, e2]
        exact hnd.1 (by
          rw [← hba]
          exact List.mem_map_of_mem (fun x : Account => x.id) hb)
      have := sum_filter_or (fun l => a.id == l.accountId)
        (fun l => as.any (fun b => b.id == l.accountId)) f ls hdisj
      simpa using this
    rw [List.map_cons, List.sum_cons, hsplit, ih hnd.2]
    have hfl : (fun l : JournalLine => l.accountId == a.id) =
        (fun l : JournalLine => a.id == l.accountId) := by
      funext l
      rcases h : l.accountId == a.id with _ | _
      · have hne : ¬ a.id = l.accountId := by
          intro hc
          simp [hc] at h
        simp [hne]
      · have heq : a.id = l.accountId := (eq_of_beq h).symm
        simp [heq]
    rw [hfl]

/-- With pairwise distinct ids, find? on the id of a listed account
returns that account. -/
lemma find_account_of_mem {accs : List Account} {a : Account}
    (hnodup : (accs.map (fun x => x.id)).Nodup) (ha : a ∈ accs) :
    accs.find? (fun x => x.id == a.id) = some a := by
  induction accs with
  | nil => cases ha
  | cons b bs ih =>
    rw [List.map_cons, List.nodup_cons] at hnodup
    rcases List.mem_cons.mp ha with rfl | ha2
    · simp [List.find?]
    · have hne : (b.id == a.id) = false := by
        rcases h : b.id == a.id with _ | _
        · rfl
        · exact absurd ((eq_of_beq h) ▸
            List.mem_map_of_mem (fun x : Account => x.id) ha2)
            (by
              intro hm
              exact hnodup.1 (by simpa using hm))
      rw [List.find?, hne]
      exact ih hnodup.2 ha2

lemma sum_map_filter_of_zero {α : Type} (p : α → Bool) (f : α → Rat)
    (l : List α) (h : ∀ x ∈ l, p x = false → f x = 0) :
    ((l.filter p).map f).sum = (l.map f).sum := by
  induction l with
  | nil => simp
  | cons x xs ih =>
    have ihx := ih (fun y hy => h y (List.mem_cons_of_mem x hy))
    rcases hp : p x with _ | _
    · rw [List.filter_cons, hp]
      simp only [Bool.false_eq_true, if_false]
      rw [ihx, List.map_cons, List.sum_cons,
        h x (List.mem_cons_self x xs) hp, zero_add]
    · rw [List.filter_cons, hp]
      simp only [if_true, List.map_cons, List.sum_cons, ihx]

lemma calcBalance_signed_eq_delta (st : Ledger) (a : Account) (asOf : Int)
    (hnodup : (st.accounts.map (fun x => x.id)).Nodup) (ha : a ∈ st.accounts)
    (hop : a.openingBalance = 0) :
    (if isDebitNormal a.type = true then
        calculateAccountBalanceAsOf st a.id a.type asOf
      else -calculateAccountBalanceAsOf st a.id a.type asOf) =
      (((postedLinesThrough st asOf).filter (fun l => l.accountId == a.id)).map
        (fun l => l.debit - l.credit)).sum := by
  unfold calculateAccountBalanceAsOf storedOpeningBalance
  rw [find_account_of_mem hnodup ha]
  simp only [hop, sum_map_sub, totalDebitOf, totalCreditOf]
  rcases hdn : isDebitNormal a.type with _ | _
  · simp only [Bool.false_eq_true, if_false]
    ring
  · simp only [if_true]
    ring

lemma row_debit_sub_credit (dn : Bool) (bal : Rat) :
    ((if dn = true ∧ 0 < bal then bal else if dn = false ∧ bal < 0 then -bal else 0) -
      (if dn = false ∧ 0 < bal then bal else if dn = true ∧ bal < 0 then -bal else 0)) =
      (if dn = true then bal else -bal) := by
  rcases dn with _ | _ <;> rcases lt_trichotomy bal 0 with h | h | h <;>
    first
      | simp [h, lt_asymm h]
      | simp [h]

lemma row_columns_nonneg (dn : Bool) (bal : Rat) :
    0 ≤ (if dn = true ∧ 0 < bal then bal else if dn = false ∧ bal < 0 then -bal else 0) ∧
    0 ≤ (if dn = false ∧ 0 < bal then bal else if dn = true ∧ bal < 0 then -bal else 0) := by
  constructor <;> split_ifs with h1 h2 <;>
    first
      | linarith [h1.2]
      | linarith [h2.2]
      | linarith

lemma tb_row_nonneg (st : Ledger) (asOf : Int) (a : Account) :
    0 ≤ (trialBalanceRowOf st asOf a).debit ∧
      0 ≤ (trialBalanceRowOf st asOf a).credit :=
  row_columns_nonneg (isDebitNormal a.type)
    (calculateAccountBalanceAsOf st a.id a.type asOf)

lemma tb_row_diff (st : Ledger) (asOf : Int) (a : Account) :
    (trialBalanceRowOf st asOf a).debit - (trialBalanceRowOf st asOf a).credit =
      (if isDebitNormal a.type = true then
        calculateAccountBalanceAsOf st a.id a.type asOf
      else -calculateAccountBalanceAsOf st a.id a.type asOf) :=
  row_debit_sub_credit (isDebitNormal a.type)
    (calculateAccountBalanceAsOf st a.id a.type asOf)

/-- Under the reachable-by-valid-postings shape of a tenant store
(every account of the tenant, active, opening balance zero, distinct
ids; every line against a listed account) with every posted entry
exactly balanced, the two trial balance columns total the same. -/
lemma trial_balance_totals_eq (st : Ledger) (companyId : Nat) (asOf : Int)
    (hacts : ∀ a ∈ st.accounts,
      a.companyId = companyId ∧ a.isActive = true ∧ a.openingBalance = 0)
    (hnodup : (st.accounts.map (fun a => a.id)).Nodup)
    (hlines : ∀ p ∈ st.entries, ∀ l ∈ p.2, ∃ a ∈ st.accounts, a.id = l.accountId)
    (hbal : ∀ p ∈ st.entries, p.1.isPosted = true →
      totalDebitOf p.2 = totalCreditOf p.2) :
    (getTrialBalance st companyId asOf).totalDebits =
      (getTrialBalance st companyId asOf).totalCredits := by
  have hfilter : st.accounts.filter
      (fun a => a.companyId == companyId && a.isActive) = st.accounts :=
    List.filter_eq_self.mpr (fun a ha => by
      obtain ⟨h1, h2, _⟩ := hacts a ha
      simp [h1, h2])
  have hzD : ∀ b ∈ st.accounts.map (trialBalanceRowOf st asOf),
      (decide (0 < b.debit) || decide (0 < b.credit)) = false → b.debit = 0 := by
    intro b hb hfalse
    obtain ⟨a, ha, rfl⟩ := List.mem_map.mp hb
    have hor := Bool.or_eq_false_iff.mp hfalse
    have hnpos : ¬ 0 < (trialBalanceRowOf st asOf a).debit :=
      of_decide_eq_false hor.1
    exact le_antisymm (not_lt.mp hnpos) (tb_row_nonneg st asOf a).1
  have hzC : ∀ b ∈ st.accounts.map (trialBalanceRowOf st asOf),
      (decide (0 < b.debit) || decide (0 < b.credit)) = false → b.credit = 0 := by
    intro b hb hfalse
    obtain ⟨a, ha, rfl⟩ := List.mem_map.mp hb
    have hor := Bool.or_eq_false_iff.mp hfalse
    have hnpos : ¬ 0 < (trialBalanceRowOf st asOf a).credit :=
      of_decide_eq_false hor.2
    exact le_antisymm (not_lt.mp hnpos) (tb_row_nonneg st asOf a).2
  rw [getTrialBalance_totalDebits, getTrialBalance_totalCredits, hfilter,
    sum_map_filter_of_zero _ _ _ hzD, sum_map_filter_of_zero _ _ _ hzC,
    ← sub_eq_zero, List.map_map, List.map_map, ← sum_map_sub]
  simp only [Function.comp]
  have hcong : (st.accounts.map (fun a =>
        (trialBalanceRowOf st asOf a).debit - (trialBalanceRowOf st asOf a).credit)) =
      (st.accounts.map (fun a =>
        (((postedLinesThrough st asOf).filter (fun l => l.accountId == a.id)).map
          (fun l => l.debit - l.credit)).sum)) := by
    apply List.map_congr_left
    intro a ha
    show (trialBalanceRowOf st asOf a).debit - (trialBalanceRowOf st asOf a).credit = _
    rw [tb_row_diff]
    exact calcBalance_signed_eq_delta st a asOf hnodup ha (hacts a ha).2.2
  rw [hcong, sum_over_accounts_partition st.accounts hnodup]
  have hall : (postedLinesThrough st asOf).filter
      (fun l => st.accounts.any (fun a => a.id == l.accountId)) =
        postedLinesThrough st asOf := by
    apply List.filter_eq_self.mpr
    intro l hl
    unfold postedLinesThrough at hl
    obtain ⟨p, hp, hlp⟩ := List.mem_flatMap.mp hl
    have hpmem : p ∈ st.entries := (List.mem_filter.mp hp).1
    obtain ⟨a, ha, haid⟩ := hlines p hpmem l hlp
    exact List.any_eq_true.mpr ⟨a, ha, by simp [haid]⟩
  rw [hall]
  unfold postedLinesThrough
  rw [sum_map_flatten_map]
  apply List.sum_eq_zero
  intro x hx
  obtain ⟨p, hp, rfl⟩ := List.mem_map.mp hx
  obtain ⟨hpmem, hq⟩ := List.mem_filter.mp hp
  have hposted : p.1.isPosted = true := by
    rw [Bool.and_eq_true] at hq
    exact hq.1
  have hb := hbal p hpmem hposted
  unfold totalDebitOf totalCreditOf at hb
  rw [sum_map_sub]
  rw [hb, sub_self]

/-- C4 amended: for a tenant store in which every account is active
with a zero opening balance and distinct ids, every line is against a
listed account, and every posted entry is exactly balanced (sum of
debits equal to sum of credits), the trial balance reports
isBalanced = true. -/
theorem claim_C4_trial_balance_balanced (st : Ledger) (companyId : Nat) (asOf : Int)
    (hacts : ∀ a ∈ st.accounts,
      a.companyId = companyId ∧ a.isActive = true ∧ a.openingBalance = 0)
    (hnodup : (st.accounts.map (fun a => a.id)).Nodup)
    (hlines : ∀ p ∈ st.entries, ∀ l ∈ p.2, ∃ a ∈ st.accounts, a.id = l.accountId)
    (hbal : ∀ p ∈ st.entries, p.1.isPosted = true →
      totalDebitOf p.2 = totalCreditOf p.2) :
    (getTrialBalance st companyId asOf).isBalanced = true := by
  rw [getTrialBalance_isBalanced,
    trial_balance_totals_eq st companyId asOf hacts hnodup hlines hbal, sub_self]
  have h0 : ratAbs 0 = 0 := rfl
  rw [h0]
  simp only [decide_eq_true_eq, tolerance]
  norm_num

/-- C4 counterexample: each of the two entries passes the posting
validation on its own (each is off by 0.009, inside the 0.01
tolerance), all accounts are active with zero opening balances, yet
the accumulated drift of 0.018 makes the trial balance report
isBalanced = false. -/
theorem claim_C4_counterexample :
    validateDoubleEntry [⟨1, 1009/1000, 0⟩, ⟨2, 0, 1⟩] = .ok () ∧
    (getTrialBalance
      ⟨[⟨1, 1, "1000", .ASSET, 0, none, false, true, 0⟩,
        ⟨2, 1, "4000", .REVENUE, 0, none, false, true, 0⟩],
       [(⟨1, 1, 1, 0, .MANUAL, none, true, false, none⟩,
          [⟨1, 1009/1000, 0⟩, ⟨2, 0, 1⟩]),
        (⟨2, 1, 2, 0, .MANUAL, none, true, false, none⟩,
          [⟨1, 1009/1000, 0⟩, ⟨2, 0, 1⟩])]⟩
      1 9).isBalanced = false := by
  refine ⟨?_, ?_⟩ <;> with_unfolding_all decide

/-- Witness for the amended C4: a store with two active zero-opening
accounts and one exactly balanced posted entry reports a balanced
trial balance. -/
theorem claim_C4_witness :
    (getTrialBalance
      ⟨[⟨1, 1, "1000", .ASSET, 0, none, false, true, 0⟩,
        ⟨2, 1, "4000", .REVENUE, 0, none, false, true, 0⟩],
       [(⟨1, 1, 1, 0, .MANUAL, none, true, false, none⟩,
          [⟨1, 5, 0⟩, ⟨2, 0, 5⟩])]⟩
      1 9).isBalanced = true :=
  claim_C4_trial_balance_balanced
    ⟨[⟨1, 1, "1000", .ASSET, 0, none, false, true, 0⟩,
      ⟨2, 1, "4000", .REVENUE, 0, none, false, true, 0⟩],
     [(⟨1, 1, 1, 0, .MANUAL, none, true, false, none⟩,
        [⟨1, 5, 0⟩, ⟨2, 0, 5⟩])]⟩
    1 9
    (by with_unfolding_all decide)
    (by decide)
    (by decide)
    (by with_unfolding_all decide)

lemma entriesDelta_append (es1 es2 : List (JournalEntry × List JournalLine))
    (aid : Nat) (d : Int) (f : JournalLine → Rat) :
    entriesDelta (es1 ++ es2) aid d f =
      entriesDelta es1 aid d f + entriesDelta es2 aid d f := by
  unfold entriesDelta
  rw [List.filter_append, List.flatMap_append, List.filter_append, List.map_append,
    List.sum_append]

lemma entriesDelta_singleton_posted (p : JournalEntry × List JournalLine)
    (aid : Nat) (d : Int) (f : JournalLine → Rat)
    (hp : p.1.isPosted = true) (hd : p.1.date ≤ d) :
    entriesDelta [p] aid d f =
      ((p.2.filter (fun l => l.accountId == aid)).map f).sum := by
  unfold entriesDelta
  rw [List.filter_singleton]
  simp [hp, hd]

lemma calcBalance_delta_form (st : Ledger) (aid : Nat) (ty : AccountType)
    (d : Int) :
    calculateAccountBalanceAsOf st aid ty d = storedOpeningBalance st aid +
      (if isDebitNormal ty = true then
        entriesDelta st.entries aid d (fun l => l.debit) -
          entriesDelta st.entries aid d (fun l => l.credit)
      else
        entriesDelta st.entries aid d (fun l => l.credit) -
          entriesDelta st.entries aid d (fun l => l.debit)) := by
  unfold calculateAccountBalanceAsOf entriesDelta totalDebitOf totalCreditOf
    postedLinesThrough
  rcases h : isDebitNormal ty with _ | _ <;> simp [h] <;> ring

lemma swapLines_filter_sum (ls : List JournalLine) (aid : Nat)
    (f g : JournalLine → Rat)
    (hswap : ∀ l : JournalLine,
      f { accountId := l.accountId, debit := l.credit, credit := l.debit } = g l) :
    (((swapLines ls).filter (fun l => l.accountId == aid)).map f).sum =
      ((ls.filter (fun l => l.accountId == aid)).map g).sum := by
  unfold swapLines
  rw [List.filter_map, List.map_map]
  have h1 : ((fun l : JournalLine => l.accountId == aid) ∘
      (fun l : JournalLine =>
        ({ accountId := l.accountId, debit := l.credit, credit := l.debit } :
          JournalLine))) = (fun l : JournalLine => l.accountId == aid) := rfl
  rw [h1]
  congr 1
  apply List.map_congr_left
  intro l _
  exact hswap l

lemma entriesDelta_nil (aid : Nat) (d : Int) (f : JournalLine → Rat) :
    entriesDelta [] aid d f = 0 := rfl

lemma entriesDelta_cons (p : JournalEntry × List JournalLine)
    (es : List (JournalEntry × List JournalLine)) (aid : Nat) (d : Int)
    (f : JournalLine → Rat) :
    entriesDelta (p :: es) aid d f =
      entriesDelta [p] aid d f + entriesDelta es aid d f := by
  have h : p :: es = [p] ++ es := rfl
  rw [h, entriesDelta_append]

/-- C5: reversing a posted entry E creates a posted reversing entry R
with every debit and credit swapped, appended to the store with E left
untouched; and for every account, account type and date on or after
both E and R, the balance of the store containing both E and R equals
the balance of the store in which E never existed. -/
theorem claim_C5_reversal_negates_entry (st : Ledger)
    (companyId userId entryId newId : Nat) (reverseDate : Int)
    (E : JournalEntry × List JournalLine)
    (l1 l2 : List (JournalEntry × List JournalLine))
    (hfind : st.entries.find?
      (fun p => p.1.id == entryId && p.1.companyId == companyId) = some E)
    (hsplit : st.entries = l1 ++ E :: l2)
    (hEposted : E.1.isPosted = true) :
    reverseJournalEntry st companyId userId entryId newId reverseDate =
      (.ok (mkReversingEntry st companyId newId reverseDate E.1.id, swapLines E.2),
        ⟨st.accounts, st.entries ++
          [(mkReversingEntry st companyId newId reverseDate E.1.id, swapLines E.2)]⟩) ∧
    (∀ (aid : Nat) (ty : AccountType) (d : Int), E.1.date ≤ d → reverseDate ≤ d →
      calculateAccountBalanceAsOf
        ⟨st.accounts, st.entries ++
          [(mkReversingEntry st companyId newId reverseDate E.1.id, swapLines E.2)]⟩
        aid ty d =
      calculateAccountBalanceAsOf ⟨st.accounts, l1 ++ l2⟩ aid ty d) := by
  constructor
  · unfold reverseJournalEntry
    rw [hfind]
  · intro aid ty d hEd hRd
    rw [calcBalance_delta_form, calcBalance_delta_form]
    have hop : ∀ X : List (JournalEntry × List JournalLine),
        storedOpeningBalance ⟨st.accounts, X⟩ aid = storedOpeningBalance st aid :=
      fun X => rfl
    rw [hop, hop]
    have hent : ∀ X : List (JournalEntry × List JournalLine),
        (Ledger.mk st.accounts X).entries = X := fun X => rfl
    rw [hent, hent]
    have hsing : ∀ f : JournalLine → Rat,
        entriesDelta [(mkReversingEntry st companyId newId reverseDate E.1.id,
          swapLines E.2)] aid d f =
          (((swapLines E.2).filter (fun l => l.accountId == aid)).map f).sum :=
      fun f => entriesDelta_singleton_posted _ aid d f rfl hRd
    have hsingE : ∀ f : JournalLine → Rat,
        entriesDelta [E] aid d f =
          ((E.2.filter (fun l => l.accountId == aid)).map f).sum :=
      fun f => entriesDelta_singleton_posted E aid d f hEposted hEd
    have hswapD :
        (((swapLines E.2).filter (fun l => l.accountId == aid)).map
          (fun l => l.debit)).sum =
          ((E.2.filter (fun l => l.accountId == aid)).map (fun l => l.credit)).sum :=
      swapLines_filter_sum E.2 aid _ _ (fun l => rfl)
    have hswapC :
        (((swapLines E.2).filter (fun l => l.accountId == aid)).map
          (fun l => l.credit)).sum =
          ((E.2.filter (fun l => l.accountId == aid)).map (fun l => l.debit)).sum :=
      swapLines_filter_sum E.2 aid _ _ (fun l => rfl)
    rw [hsplit]
    rcases hdn : isDebitNormal ty with _ | _ <;>
      simp only [hdn, Bool.false_eq_true, if_false, if_true, hop, hent,
        entriesDelta_append, entriesDelta_cons, entriesDelta_nil,
        hsing, hsingE, hswapD, hswapC] <;>
      ring

/-- Witness for C5: reversing a posted entry that debits Cash 5 and
credits Sales 5 restores every balance to what it is in the store
without that entry. -/
theorem claim_C5_witness :
    reverseJournalEntry
        ⟨[⟨1, 1, "1000", .ASSET, 0, none, false, true, 0⟩],
         [(⟨4, 1, 1, 3, .MANUAL, none, true, false, none⟩, [⟨1, 5, 0⟩, ⟨2, 0, 5⟩])]⟩
        1 1 4 9 7 =
      (.ok (mkReversingEntry
          ⟨[⟨1, 1, "1000", .ASSET, 0, none, false, true, 0⟩],
           [(⟨4, 1, 1, 3, .MANUAL, none, true, false, none⟩, [⟨1, 5, 0⟩, ⟨2, 0, 5⟩])]⟩
          1 9 7 4, swapLines [⟨1, 5, 0⟩, ⟨2, 0, 5⟩]),
        ⟨[⟨1, 1, "1000", .ASSET, 0, none, false, true, 0⟩],
         [(⟨4, 1, 1, 3, .MANUAL, none, true, false, none⟩, [⟨1, 5, 0⟩, ⟨2, 0, 5⟩])] ++
          [(mkReversingEntry
            ⟨[⟨1, 1, "1000", .ASSET, 0, none, false, true, 0⟩,],
             [(⟨4, 1, 1, 3, .MANUAL, none, true, false, none⟩, [⟨1, 5, 0⟩, ⟨2, 0, 5⟩])]⟩
            1 9 7 4, swapLines [⟨1, 5, 0⟩, ⟨2, 0, 5⟩])]⟩) ∧
    calculateAccountBalanceAsOf
        ⟨[⟨1, 1, "1000", .ASSET, 0, none, false, true, 0⟩],
         [(⟨4, 1, 1, 3, .MANUAL, none, true, false, none⟩, [⟨1, 5, 0⟩, ⟨2, 0, 5⟩])] ++
          [(mkReversingEntry
            ⟨[⟨1, 1, "1000", .ASSET, 0, none, false, true, 0⟩],
             [(⟨4, 1, 1, 3, .MANUAL, none, true, false, none⟩, [⟨1, 5, 0⟩, ⟨2, 0, 5⟩])]⟩
            1 9 7 4, swapLines [⟨1, 5, 0⟩, ⟨2, 0, 5⟩])]⟩
        1 .ASSET 30 =
      calculateAccountBalanceAsOf
        ⟨[⟨1, 1, "1000", .ASSET, 0, none, false, true, 0⟩], [] ++ []⟩ 1 .ASSET 30 := by
  have h := claim_C5_reversal_negates_entry
    ⟨[⟨1, 1, "1000", .ASSET, 0, none, false, true, 0⟩],
     [(⟨4, 1, 1, 3, .MANUAL, none, true, false, none⟩, [⟨1, 5, 0⟩, ⟨2, 0, 5⟩])]⟩
    1 1 4 9 7
    (⟨4, 1, 1, 3, .MANUAL, none, true, false, none⟩, [⟨1, 5, 0⟩, ⟨2, 0, 5⟩])
    [] []
    (by with_unfolding_all decide) rfl rfl
  exact ⟨h.1, h.2 1 .ASSET 30 (by decide) (by decide)⟩

lemma sum_map_neg {α : Type} (l : List α) (g : α → Rat) :
    (l.map (fun x => -g x)).sum = -(l.map g).sum := by
  induction l with
  | nil => simp
  | cons x xs ih => simp only [List.map_cons, List.sum_cons, ih]; ring

/-- Splitting a sum over accounts into the five account types. -/
lemma accounts_type_partition (accs : List Account) (g : Account → Rat) :
    ((accs.filter (fun a => a.type == AccountType.ASSET)).map g).sum +
      ((accs.filter (fun a => a.type == AccountType.LIABILITY)).map g).sum +
      ((accs.filter (fun a => a.type == AccountType.EQUITY)).map g).sum +
      ((accs.filter (fun a => a.type == AccountType.REVENUE)).map g).sum +
      ((accs.filter (fun a => a.type == AccountType.EXPENSE)).map g).sum =
      (accs.map g).sum := by
  induction accs with
  | nil => simp
  | cons a as ih =>
    rcases h : a.type with _ | _ | _ | _ | _ <;>
      simp only [List.filter_cons, h, List.map_cons, List.sum_cons] <;>
      simp only [show (AccountType.ASSET == AccountType.ASSET) = true from rfl,
        show (AccountType.ASSET == AccountType.LIABILITY) = false from rfl,
        show (AccountType.ASSET == AccountType.EQUITY) = false from rfl,
        show (AccountType.ASSET == AccountType.REVENUE) = false from rfl,
        show (AccountType.ASSET == AccountType.EXPENSE) = false from rfl,
        show (AccountType.LIABILITY == AccountType.ASSET) = false from rfl,
        show (AccountType.LIABILITY == AccountType.LIABILITY) = true from rfl,
        show (AccountType.LIABILITY == AccountType.EQUITY) = false from rfl,
        show (AccountType.LIABILITY == AccountType.REVENUE) = false from rfl,
        show (AccountType.LIABILITY == AccountType.EXPENSE) = false from rfl,
        show (AccountType.EQUITY == AccountType.ASSET) = false from rfl,
        show (AccountType.EQUITY == AccountType.LIABILITY) = false from rfl,
        show (AccountType.EQUITY == AccountType.EQUITY) = true from rfl,
        show (AccountType.EQUITY == AccountType.REVENUE) = false from rfl,
        show (AccountType.EQUITY == AccountType.EXPENSE) = false from rfl,
        show (AccountType.REVENUE == AccountType.ASSET) = false from rfl,
        show (AccountType.REVENUE == AccountType.LIABILITY) = false from rfl,
        show (AccountType.REVENUE == AccountType.EQUITY) = false from rfl,
        show (AccountType.REVENUE == AccountType.REVENUE) = true from rfl,
        show (AccountType.REVENUE == AccountType.EXPENSE) = false from rfl,
        show (AccountType.EXPENSE == AccountType.ASSET) = false from rfl,
        show (AccountType.EXPENSE == AccountType.LIABILITY) = false from rfl,
        show (AccountType.EXPENSE == AccountType.EQUITY) = false from rfl,
        show (AccountType.EXPENSE == AccountType.REVENUE) = false from rfl,
        show (AccountType.EXPENSE == AccountType.EXPENSE) = true from rfl,
        Bool.false_eq_true, if_false, if_true, List.map_cons, List.sum_cons,
        ← ih] <;>
      ring

lemma bool_eq_of_iff {b c : Bool} (h : b = true ↔ c = true) : b = c := by
  rcases hb : b with _ | _ <;> rcases hc : c with _ | _ <;> simp_all

/-- The join predicate of the retained-earnings aggregate coincides,
for a single-company chart, with membership of the line account among
the accounts of that type. -/
lemma typeline_pred_eq (st : Ledger) (companyId : Nat) (ty : AccountType)
    (hcid : ∀ a ∈ st.accounts, a.companyId = companyId) :
    (fun l : JournalLine => st.accounts.any (fun a =>
      a.id == l.accountId && a.companyId == companyId && (a.type == ty))) =
    (fun l : JournalLine => (st.accounts.filter (fun a => a.type == ty)).any
      (fun a => a.id == l.accountId)) := by
  funext l
  apply bool_eq_of_iff
  simp only [List.any_eq_true, List.mem_filter, Bool.and_eq_true, beq_iff_eq]
  constructor
  · rintro ⟨a, ha, ⟨hid, _⟩, hty⟩
    exact ⟨a, ⟨ha, hty⟩, hid⟩
  · rintro ⟨a, ⟨ha, hty⟩, hid⟩
    exact ⟨a, ha, ⟨hid, hcid a ha⟩, hty⟩

lemma typeBalances_sum (st : Ledger) (companyId : Nat) (ty : AccountType)
    (asOf : Int)
    (hacts : ∀ a ∈ st.accounts,
      a.companyId = companyId ∧ a.isActive = true ∧ a.openingBalance = 0)
    (hnodup : (st.accounts.map (fun a => a.id)).Nodup) :
    ((getAccountBalancesAsOf st companyId ty asOf).map (fun r => r.balance)).sum =
      (if isDebitNormal ty = true then
        ((st.accounts.filter (fun a => a.type == ty)).map (fun a =>
          (((postedLinesThrough st asOf).filter (fun l => l.accountId == a.id)).map
            (fun l => l.debit - l.credit)).sum)).sum
      else
        -((st.accounts.filter (fun a => a.type == ty)).map (fun a =>
          (((postedLinesThrough st asOf).filter (fun l => l.accountId == a.id)).map
            (fun l => l.debit - l.credit)).sum)).sum) := by
  unfold getAccountBalancesAsOf
  rw [List.filter_congr (fun a ha => by
    simp [(hacts a ha).1, (hacts a ha).2.1] :
    ∀ a ∈ st.accounts, (a.companyId == companyId && (a.type == ty) && a.isActive) =
      (a.type == ty)), List.map_map]
  simp only [Function.comp_def]
  rcases hdn : isDebitNormal ty with _ | _
  · simp only [Bool.false_eq_true, if_false]
    rw [← sum_map_neg]
    apply congrArg
    apply List.map_congr_left
    intro a ha
    obtain ⟨haccs, htyb⟩ := List.mem_filter.mp ha
    have hty : a.type = ty := by simpa using htyb
    have hsd := calcBalance_signed_eq_delta st a asOf hnodup haccs (hacts a haccs).2.2
    rw [hty, hdn] at hsd
    simp only [Bool.false_eq_true, if_false] at hsd
    rw [hty]
    linarith [hsd]
  · simp only [if_true]
    apply congrArg
    apply List.map_congr_left
    intro a ha
    obtain ⟨haccs, htyb⟩ := List.mem_filter.mp ha
    have hty : a.type = ty := by simpa using htyb
    have hsd := calcBalance_signed_eq_delta st a asOf hnodup haccs (hacts a haccs).2.2
    rw [hty, hdn] at hsd
    simp only [if_true] at hsd
    rw [hty]
    exact hsd

lemma nodup_ids_filter (accs : List Account) (p : Account → Bool)
    (h : (accs.map (fun a => a.id)).Nodup) :
    ((accs.filter p).map (fun a => a.id)).Nodup :=
  h.sublist (List.Sublist.map (fun a => a.id) (List.filter_sublist accs))

lemma sum_accounts_cd_eq_neg (accs : List Account) (ls : List JournalLine) :
    (accs.map (fun a => ((ls.filter (fun l => l.accountId == a.id)).map
      (fun l => l.credit - l.debit)).sum)).sum =
      -(accs.map (fun a => ((ls.filter (fun l => l.accountId == a.id)).map
        (fun l => l.debit - l.credit)).sum)).sum := by
  rw [← sum_map_neg]
  apply congrArg
  apply List.map_congr_left
  intro a _
  rw [sum_map_sub, sum_map_sub]
  ring

lemma retainedEarnings_sum (st : Ledger) (companyId : Nat) (asOf : Int)
    (hcid : ∀ a ∈ st.accounts, a.companyId = companyId)
    (hnodup : (st.accounts.map (fun a => a.id)).Nodup) :
    calculateRetainedEarnings st companyId asOf =
      -((st.accounts.filter (fun a => a.type == AccountType.REVENUE)).map (fun a =>
        (((postedLinesThrough st asOf).filter (fun l => l.accountId == a.id)).map
          (fun l => l.debit - l.credit)).sum)).sum -
      ((st.accounts.filter (fun a => a.type == AccountType.EXPENSE)).map (fun a =>
        (((postedLinesThrough st asOf).filter (fun l => l.accountId == a.id)).map
          (fun l => l.debit - l.credit)).sum)).sum := by
  simp only [calculateRetainedEarnings]
  rw [typeline_pred_eq st companyId .REVENUE hcid,
    typeline_pred_eq st companyId .EXPENSE hcid]
  have hsubCD : ∀ L : List JournalLine,
      totalCreditOf L - totalDebitOf L = (L.map (fun l => l.credit - l.debit)).sum :=
    fun L => by rw [totalCreditOf, totalDebitOf, sum_map_sub]
  have hsubDC : ∀ L : List JournalLine,
      totalDebitOf L - totalCreditOf L = (L.map (fun l => l.debit - l.credit)).sum :=
    fun L => by rw [totalCreditOf, totalDebitOf, sum_map_sub]
  rw [hsubCD, hsubDC,
    ← sum_over_accounts_partition
      (st.accounts.filter (fun a => a.type == AccountType.REVENUE))
      (nodup_ids_filter st.accounts _ hnodup) (postedLinesThrough st asOf)
      (fun l => l.credit - l.debit),
    ← sum_over_accounts_partition
      (st.accounts.filter (fun a => a.type == AccountType.EXPENSE))
      (nodup_ids_filter st.accounts _ hnodup) (postedLinesThrough st asOf)
      (fun l => l.debit - l.credit),
    sum_accounts_cd_eq_neg]

lemma postedLines_filter_listed (st : Ledger) (asOf : Int)
    (hlines : ∀ p ∈ st.entries, ∀ l ∈ p.2, ∃ a ∈ st.accounts, a.id = l.accountId) :
    (postedLinesThrough st asOf).filter
      (fun l => st.accounts.any (fun a => a.id == l.accountId)) =
      postedLinesThrough st asOf := by
  apply List.filter_eq_self.mpr
  intro l hl
  unfold postedLinesThrough at hl
  obtain ⟨p, hp, hlp⟩ := List.mem_flatMap.mp hl
  have hpmem : p ∈ st.entries := (List.mem_filter.mp hp).1
  obtain ⟨a, ha, haid⟩ := hlines p hpmem l hlp
  exact List.any_eq_true.mpr ⟨a, ha, by simp [haid]⟩

/-- The balance sheet satisfies the accounting identity exactly, up to
the net drift of the posted ledger lines: assets minus the sum of
liabilities, equity account balances and retained earnings equals the
total of debit minus credit over all posted lines through the date. -/
lemma balance_sheet_identity (st : Ledger) (companyId : Nat) (asOf : Int)
    (hacts : ∀ a ∈ st.accounts,
      a.companyId = companyId ∧ a.isActive = true ∧ a.openingBalance = 0)
    (hnodup : (st.accounts.map (fun a => a.id)).Nodup)
    (hlines : ∀ p ∈ st.entries, ∀ l ∈ p.2, ∃ a ∈ st.accounts, a.id = l.accountId) :
    (getBalanceSheet st companyId asOf).totalAssets -
      ((getBalanceSheet st companyId asOf).totalLiabilities +
        (getBalanceSheet st companyId asOf).equityAccountsTotal +
        (getBalanceSheet st companyId asOf).retainedEarnings) =
      ((postedLinesThrough st asOf).map (fun l => l.debit - l.credit)).sum := by
  have hA : (getBalanceSheet st companyId asOf).totalAssets =
      ((getAccountBalancesAsOf st companyId .ASSET asOf).map
        (fun r => r.balance)).sum := rfl
  have hL : (getBalanceSheet st companyId asOf).totalLiabilities =
      ((getAccountBalancesAsOf st companyId .LIABILITY asOf).map
        (fun r => r.balance)).sum := rfl
  have hE : (getBalanceSheet st companyId asOf).equityAccountsTotal =
      ((getAccountBalancesAsOf st companyId .EQUITY asOf).map
        (fun r => r.balance)).sum := rfl
  have hRE : (getBalanceSheet st companyId asOf).retainedEarnings =
      calculateRetainedEarnings st companyId asOf := rfl
  rw [hA, hL, hE, hRE, typeBalances_sum st companyId .ASSET asOf hacts hnodup,
    typeBalances_sum st companyId .LIABILITY asOf hacts hnodup,
    typeBalances_sum st companyId .EQUITY asOf hacts hnodup,
    retainedEarnings_sum st companyId asOf (fun a ha => (hacts a ha).1) hnodup]
  simp only [show isDebitNormal .ASSET = true from rfl,
    show isDebitNormal .LIABILITY = false from rfl,
    show isDebitNormal .EQUITY = false from rfl, if_true,
    Bool.false_eq_true, if_false]
  have hpart := accounts_type_partition st.accounts (fun a =>
    (((postedLinesThrough st asOf).filter (fun l => l.accountId == a.id)).map
      (fun l => l.debit - l.credit)).sum)
  have hfull := sum_over_accounts_partition st.accounts hnodup
    (postedLinesThrough st asOf) (fun l => l.debit - l.credit)
  rw [postedLines_filter_listed st asOf hlines] at hfull
  linarith [hpart, hfull]

/-- C6: when the whole posted ledger is balanced within tolerance (the
hypothesis the claim words as the underlying ledger being balanced) on
a single-company chart of active, zero-opening accounts with distinct
ids and all lines against listed accounts, the balance sheet satisfies
totalAssets = totalLiabilities + equity account balances +
retainedEarnings within the same tolerance; and the reported
totalEquity is the equity account total plus retainedEarnings. -/
theorem claim_C6_balance_sheet_equation (st : Ledger) (companyId : Nat)
    (asOf : Int)
    (hacts : ∀ a ∈ st.accounts,
      a.companyId = companyId ∧ a.isActive = true ∧ a.openingBalance = 0)
    (hnodup : (st.accounts.map (fun a => a.id)).Nodup)
    (hlines : ∀ p ∈ st.entries, ∀ l ∈ p.2, ∃ a ∈ st.accounts, a.id = l.accountId)
    (hledger : ratAbs (((postedLinesThrough st asOf).map
      (fun l => l.debit - l.credit)).sum) < tolerance) :
    ratAbs ((getBalanceSheet st companyId asOf).totalAssets -
      ((getBalanceSheet st companyId asOf).totalLiabilities +
        (getBalanceSheet st companyId asOf).equityAccountsTotal +
        (getBalanceSheet st companyId asOf).retainedEarnings)) < tolerance ∧
    (getBalanceSheet st companyId asOf).totalEquity =
      (getBalanceSheet st companyId asOf).equityAccountsTotal +
        (getBalanceSheet st companyId asOf).retainedEarnings ∧
    (getBalanceSheet st companyId asOf).totalLiabilitiesAndEquity =
      (getBalanceSheet st companyId asOf).totalLiabilities +
        (getBalanceSheet st companyId asOf).totalEquity := by
  refine ⟨?_, rfl, rfl⟩
  rw [balance_sheet_identity st companyId asOf hacts hnodup hlines]
  exact hledger

/-- Witness for C6: a store with an asset account and a revenue
account, one posted entry debiting Cash 5 and crediting Sales 5; the
balance sheet identity holds within tolerance. -/
theorem claim_C6_witness :
    ratAbs ((getBalanceSheet
        ⟨[⟨1, 1, "1000", .ASSET, 0, none, false, true, 0⟩,
          ⟨2, 1, "4000", .REVENUE, 0, none, false, true, 0⟩],
         [(⟨1, 1, 1, 0, .MANUAL, none, true, false, none⟩,
            [⟨1, 5, 0⟩, ⟨2, 0, 5⟩])]⟩ 1 9).totalAssets -
      ((getBalanceSheet
        ⟨[⟨1, 1, "1000", .ASSET, 0, none, false, true, 0⟩,
          ⟨2, 1, "4000", .REVENUE, 0, none, false, true, 0⟩],
         [(⟨1, 1, 1, 0, .MANUAL, none, true, false, none⟩,
            [⟨1, 5, 0⟩, ⟨2, 0, 5⟩])]⟩ 1 9).totalLiabilities +
        (getBalanceSheet
        ⟨[⟨1, 1, "1000", .ASSET, 0, none, false, true, 0⟩,
          ⟨2, 1, "4000", .REVENUE, 0, none, false, true, 0⟩],
         [(⟨1, 1, 1, 0, .MANUAL, none, true, false, none⟩,
            [⟨1, 5, 0⟩, ⟨2, 0, 5⟩])]⟩ 1 9).equityAccountsTotal +
        (getBalanceSheet
        ⟨[⟨1, 1, "1000", .ASSET, 0, none, false, true, 0⟩,
          ⟨2, 1, "4000", .REVENUE, 0, none, false, true, 0⟩],
         [(⟨1, 1, 1, 0, .MANUAL, none, true, false, none⟩,
            [⟨1, 5, 0⟩, ⟨2, 0, 5⟩])]⟩ 1 9).retainedEarnings)) < tolerance :=
  (claim_C6_balance_sheet_equation
    ⟨[⟨1, 1, "1000", .ASSET, 0, none, false, true, 0⟩,
      ⟨2, 1, "4000", .REVENUE, 0, none, false, true, 0⟩],
     [(⟨1, 1, 1, 0, .MANUAL, none, true, false, none⟩,
        [⟨1, 5, 0⟩, ⟨2, 0, 5⟩])]⟩ 1 9
    (by with_unfolding_all decide)
    (by decide)
    (by decide)
    (by with_unfolding_all decide)).1

lemma bucketIndexLoop_ge_one (d : Int) (ps : List Int) :
    1 ≤ bucketIndexLoop d ps := by
  induction ps with
  | nil => simp [bucketIndexLoop]
  | cons p t ih =>
    unfold bucketIndexLoop
    split_ifs
    · exact le_refl 1
    · omega

lemma bucketIndexLoop_le (d : Int) (ps : List Int) :
    bucketIndexLoop d ps ≤ ps.length + 1 := by
  induction ps with
  | nil => simp [bucketIndexLoop]
  | cons p t ih =>
    unfold bucketIndexLoop
    split_ifs
    · simp
    · simp only [List.length_cons]
      omega

lemma agingPeriodLabels_length (prev : Int) (ps : List Int) :
    (agingPeriodLabels prev ps).length = ps.length := by
  induction ps generalizing prev with
  | nil => rfl
  | cons p t ih => simp [agingPeriodLabels, ih]

lemma getD_mem_of_lt (l : List Int) (i : Nat) (h : i < l.length) :
    l.getD i 0 ∈ l := by
  rw [List.getD_eq_getElem l 0 h]
  exact List.getElem_mem h

lemma getLastD_mem_of_ne (l : List Int) (hne : l ≠ []) : l.getLastD 0 ∈ l := by
  rw [List.getLastD_eq_getLast?, List.getLast?_eq_getLast l hne]
  exact List.getLast_mem hne

lemma mem_le_getLastD (l : List Int) (hpw : l.Pairwise (· < ·)) :
    ∀ x ∈ l, x ≤ l.getLastD 0 := by
  induction l with
  | nil => intro x hx; cases hx
  | cons a t ih =>
    intro x hx
    obtain ⟨hat, hpt⟩ := List.pairwise_cons.mp hpw
    rcases List.mem_cons.mp hx with rfl | hxt
    · cases t with
      | nil => simp [List.getLastD]
      | cons b t2 =>
        have hb : b ≤ (b :: t2).getLastD 0 :=
          ih hpt b (List.mem_cons_self b t2)
        rw [List.getLastD_cons]
        have hirrel : (b :: t2).getLastD x = (b :: t2).getLastD 0 := by
          rw [List.getLastD_eq_getLast?, List.getLastD_eq_getLast?,
            List.getLast?_eq_getLast _ (by simp)]
          rfl
        rw [hirrel]
        exact le_of_lt (lt_of_lt_of_le (hat b (List.mem_cons_self b t2)) hb)
    · have hne : t ≠ [] := List.ne_nil_of_mem hxt
      rw [List.getLastD_cons]
      have hirrel : t.getLastD a = t.getLastD 0 := by
        rw [List.getLastD_eq_getLast?, List.getLastD_eq_getLast?,
          List.getLast?_eq_getLast _ hne]
        rfl
      rw [hirrel]
      exact ih hpt x hxt

lemma bucketIndexLoop_eq_overflow_iff (d : Int) (ps : List Int) :
    bucketIndexLoop d ps = ps.length + 1 ↔ ∀ p ∈ ps, p < d := by
  induction ps with
  | nil => simp [bucketIndexLoop]
  | cons p t ih =>
    unfold bucketIndexLoop
    by_cases hle : d ≤ p
    · rw [if_pos hle]
      simp only [List.length_cons]
      constructor
      · intro h
        omega
      · intro h
        exact absurd (h p (List.mem_cons_self p t)) (not_lt.mpr hle)
    · rw [if_neg hle]
      simp only [List.length_cons]
      constructor
      · intro h q hq
        rcases List.mem_cons.mp hq with rfl | hqt
        · exact not_le.mp hle
        · exact (ih.mp (by omega)) q hqt
      · intro h
        have := ih.mpr (fun q hq => h q (List.mem_cons_of_mem p hq))
        omega

lemma bucketIndexLoop_interval_iff (d : Int) (ps : List Int)
    (hpw : ps.Pairwise (· < ·)) (hpos : ∀ p ∈ ps, 0 < p) (hd : 0 < d) :
    ∀ k, k < ps.length →
      (bucketIndexLoop d ps = k + 1 ↔
        ((if k = 0 then (0 : Int) else ps.getD (k - 1) 0) < d ∧
          d ≤ ps.getD k 0)) := by
  induction ps with
  | nil => intro k hk; simp at hk
  | cons p t ih =>
    obtain ⟨hpt, hptw⟩ := List.pairwise_cons.mp hpw
    have ht0 : ∀ q ∈ t, 0 < q := fun q hq => hpos q (List.mem_cons_of_mem p hq)
    intro k hk
    unfold bucketIndexLoop
    rcases k with _ | k2
    · simp only [if_pos rfl, List.getD_cons_zero]
      constructor
      · intro h1
        by_cases hle : d ≤ p
        · exact ⟨hd, hle⟩
        · rw [if_neg hle] at h1
          have := bucketIndexLoop_ge_one d t
          omega
      · rintro ⟨_, hle⟩
        rw [if_pos hle]
    · have hk2 : k2 < t.length := by
        simpa using Nat.lt_of_succ_lt_succ hk
      by_cases hle : d ≤ p
      · rw [if_pos hle]
        constructor
        · intro h
          omega
        · rintro ⟨hprev, _⟩
          rw [if_neg (Nat.succ_ne_zero k2)] at hprev
          have hidx : (k2 + 1 - 1) = k2 := rfl
          rw [hidx] at hprev
          have hmem : (p :: t).getD k2 0 ∈ p :: t :=
            getD_mem_of_lt _ _ (by simp; omega)
          have hple : p ≤ (p :: t).getD k2 0 := by
            rcases List.mem_cons.mp hmem with he | hm
            · rw [he]
            · exact le_of_lt (hpt _ hm)
          linarith
      · rw [if_neg hle]
        have hiff := ih hptw ht0 k2 hk2
        constructor
        · intro h
          have hloop : bucketIndexLoop d t = k2 + 1 := by omega
          obtain ⟨h1, h2⟩ := hiff.mp hloop
          refine ⟨?_, by simpa using h2⟩
          rw [if_neg (Nat.succ_ne_zero k2)]
          have hidx : (k2 + 1 - 1) = k2 := rfl
          rw [hidx]
          rcases k2 with _ | k3
          · simpa using not_le.mp hle
          · have hidx2 : (k3 + 1 - 1) = k3 := rfl
            rw [if_neg (Nat.succ_ne_zero k3), hidx2] at h1
            simpa using h1
        · rintro ⟨h1, h2⟩
          have hprev : (if k2 = 0 then (0 : Int) else t.getD (k2 - 1) 0) < d := by
            rcases k2 with _ | k3
            · simpa using hd
            · rw [if_neg (Nat.succ_ne_zero k3)]
              rw [if_neg (Nat.succ_ne_zero (k3 + 1))] at h1
              have hidx : (k3 + 1 + 1 - 1) = k3 + 1 := rfl
              rw [hidx] at h1
              have hidx2 : (k3 + 1 - 1) = k3 := rfl
              rw [hidx2]
              simpa using h1
          have := hiff.mpr ⟨hprev, by simpa using h2⟩
          omega

lemma agingPeriodLabels_getD (ps : List Int) :
    ∀ (prev : Int) (i : Nat), i < ps.length →
      (agingPeriodLabels prev ps).getD i "" =
        toString ((if i = 0 then prev else ps.getD (i - 1) 0) + 1) ++ "-" ++
          toString (ps.getD i 0) ++ " days" := by
  induction ps with
  | nil => intro prev i hi; simp at hi
  | cons p t ih =>
    intro prev i hi
    rcases i with _ | i2
    · simp [agingPeriodLabels, List.getD_cons_zero]
    · have hi2 : i2 < t.length := by simpa using Nat.lt_of_succ_lt_succ hi
      simp only [agingPeriodLabels, List.getD_cons_succ]
      rw [ih p i2 hi2]
      rcases i2 with _ | i3
      · simp
      · simp

/-- C7: aging bucket assignment is a total, non-overlapping partition
of days-overdue values, for any non-empty strictly ascending positive
period list: the report has periods.length + 2 buckets and the index
is always in range; daysOverdue at or below zero lands exactly in
bucket 0, labelled Current; for each period i the index is i + 1
exactly when daysOverdue lies in the half-open-below interval from the
previous boundary (exclusive) to boundary i (inclusive), so a value
equal to periods[i] lands in bucket i + 1; the index is the overflow
periods.length + 1 exactly when daysOverdue exceeds the last boundary;
and the period buckets carry the labels prevBoundary+1-boundary days
with the overflow labelled Over lastBoundary days. -/
theorem claim_C7_aging_bucket_assignment (periods : List Int) (d : Int)
    (hne : periods ≠ [])
    (hpos : ∀ p ∈ periods, 0 < p)
    (hsort : periods.Pairwise (· < ·)) :
    (buildAgingBuckets periods).length = periods.length + 2 ∧
    getBucketIndex d periods < periods.length + 2 ∧
    (getBucketIndex d periods = 0 ↔ d ≤ 0) ∧
    (buildAgingBuckets periods).getD 0 "" = "Current" ∧
    (∀ i, i < periods.length →
      (getBucketIndex d periods = i + 1 ↔
        ((if i = 0 then (0 : Int) else periods.getD (i - 1) 0) < d ∧
          d ≤ periods.getD i 0))) ∧
    (∀ i, i < periods.length → d = periods.getD i 0 →
      getBucketIndex d periods = i + 1) ∧
    (getBucketIndex d periods = periods.length + 1 ↔ periods.getLastD 0 < d) ∧
    (∀ i, i < periods.length →
      (buildAgingBuckets periods).getD (i + 1) "" =
        toString ((if i = 0 then (0 : Int) else periods.getD (i - 1) 0) + 1) ++
          "-" ++ toString (periods.getD i 0) ++ " days") ∧
    (buildAgingBuckets periods).getD (periods.length + 1) "" =
      "Over " ++ toString (periods.getLastD 0) ++ " days" := by
  have hlen0 : periods.length ≠ 0 := fun h => hne (List.eq_nil_of_length_eq_zero h)
  have hinterval : ∀ i, i < periods.length →
      (getBucketIndex d periods = i + 1 ↔
        ((if i = 0 then (0 : Int) else periods.getD (i - 1) 0) < d ∧
          d ≤ periods.getD i 0)) := by
    intro i hi
    unfold getBucketIndex
    by_cases hd : d ≤ 0
    · rw [if_pos hd]
      constructor
      · intro h
        omega
      · rintro ⟨hprev, _⟩
        rcases i with _ | i2
        · simp at hprev
          linarith
        · rw [if_neg (Nat.succ_ne_zero i2)] at hprev
          have hidx : (i2 + 1 - 1) = i2 := rfl
          rw [hidx] at hprev
          have hmem : periods.getD i2 0 ∈ periods :=
            getD_mem_of_lt _ _ (by omega)
          have := hpos _ hmem
          linarith
    · rw [if_neg hd]
      exact bucketIndexLoop_interval_iff d periods hsort hpos
        (by linarith [not_le.mp hd]) i hi
  refine ⟨?_, ?_, ?_, rfl, hinterval, ?_, ?_, ?_, ?_⟩
  · simp [buildAgingBuckets, agingPeriodLabels_length]
  · unfold getBucketIndex
    by_cases hd : d ≤ 0
    · rw [if_pos hd]
      omega
    · rw [if_neg hd]
      have := bucketIndexLoop_le d periods
      omega
  · unfold getBucketIndex
    by_cases hd : d ≤ 0
    · rw [if_pos hd]
      simp [hd]
    · rw [if_neg hd]
      have := bucketIndexLoop_ge_one d periods
      constructor
      · intro h
        omega
      · intro h
        exact absurd h hd
  · intro i hi hdi
    apply (hinterval i hi).mpr
    refine ⟨?_, le_of_eq hdi⟩
    rcases i with _ | i2
    · simp only [if_pos rfl]
      rw [hdi]
      exact hpos _ (getD_mem_of_lt _ _ hi)
    · rw [if_neg (Nat.succ_ne_zero i2)]
      have hidx : (i2 + 1 - 1) = i2 := rfl
      rw [hidx, hdi]
      have h1 : i2 < periods.length := by omega
      rw [List.getD_eq_getElem periods 0 h1, List.getD_eq_getElem periods 0 hi]
      exact List.pairwise_iff_get.mp hsort ⟨i2, h1⟩ ⟨i2 + 1, hi⟩
        (Fin.mk_lt_mk.mpr (Nat.lt_succ_self i2))
  · unfold getBucketIndex
    by_cases hd : d ≤ 0
    · rw [if_pos hd]
      constructor
      · intro h
        omega
      · intro h
        have := hpos _ (getLastD_mem_of_ne periods hne)
        linarith
    · rw [if_neg hd]
      rw [bucketIndexLoop_eq_overflow_iff]
      constructor
      · intro h
        exact h _ (getLastD_mem_of_ne periods hne)
      · intro h p hp
        exact lt_of_le_of_lt (mem_le_getLastD periods hsort p hp) h
  · intro i hi
    show (agingPeriodLabels 0 periods ++
      ["Over " ++ toString (periods.getLastD 0) ++ " days"]).getD i "" = _
    rw [List.getD_append _ _ "" i (by rw [agingPeriodLabels_length]; exact hi)]
    exact agingPeriodLabels_getD periods 0 i hi
  · show (agingPeriodLabels 0 periods ++
      ["Over " ++ toString (periods.getLastD 0) ++ " days"]).getD
        periods.length "" = _
    rw [List.getD_append_right _ _ "" periods.length
      (by rw [agingPeriodLabels_length])]
    rw [agingPeriodLabels_length]
    simp

/-- Witness for C7 at the default period list [30, 60, 90, 120]: a
value of 45 lands in bucket 2 labelled 31-60 days, the boundary value
60 also lands in bucket 2, zero days overdue is Current, and 130 days
lands in the overflow bucket labelled Over 120 days. -/
theorem claim_C7_witness :
    getBucketIndex 45 [30, 60, 90, 120] = 2 ∧
    getBucketIndex 60 [30, 60, 90, 120] = 2 ∧
    getBucketIndex 0 [30, 60, 90, 120] = 0 ∧
    getBucketIndex 130 [30, 60, 90, 120] = 5 ∧
    (buildAgingBuckets [30, 60, 90, 120]).getD 2 "" = "31-60 days" ∧
    (buildAgingBuckets [30, 60, 90, 120]).getD 5 "" = "Over 120 days" := by
  have h45 := claim_C7_aging_bucket_assignment [30, 60, 90, 120] 45
    (by decide) (by decide) (by decide)
  have h60 := claim_C7_aging_bucket_assignment [30, 60, 90, 120] 60
    (by decide) (by decide) (by decide)
  have h0 := claim_C7_aging_bucket_assignment [30, 60, 90, 120] 0
    (by decide) (by decide) (by decide)
  have h130 := claim_C7_aging_bucket_assignment [30, 60, 90, 120] 130
    (by decide) (by decide) (by decide)
  refine ⟨(h45.2.2.2.2.1 1 (by decide)).mpr (by decide),
    h60.2.2.2.2.2.1 1 (by decide) (by decide),
    (h0.2.2.1).mpr (by decide),
    (h130.2.2.2.2.2.2.1).mpr (by decide),
    ?_, ?_⟩
  · have hl := h45.2.2.2.2.2.2.2.1 1 (by decide)
    show (buildAgingBuckets [30, 60, 90, 120]).getD (1 + 1) "" = "31-60 days"
    rw [hl]
    decide
  · have ho := h45.2.2.2.2.2.2.2.2
    show (buildAgingBuckets [30, 60, 90, 120]).getD
      (([30, 60, 90, 120] : List Int).length + 1) "" = "Over 120 days"
    rw [ho]
    decide

lemma cycleChart_loop_never_ends : ∀ n : Nat,
    walkParentChain cycleChart 1 n
        ⟨2, 1, "B", .ASSET, 0, some 3, false, true, 0⟩ = none ∧
      walkParentChain cycleChart 1 n
        ⟨3, 1, "C", .ASSET, 0, some 2, false, true, 0⟩ = none := by
  intro n
  induction n with
  | zero => exact ⟨rfl, rfl⟩
  | succ k ih => exact ⟨ih.2, ih.1⟩

/-- C8 counterexample: on the corrupted chart whose accounts 2 and 3
form a parent cycle avoiding account 1, the walk for an update of
account 1 with proposed parent 2 steps from 2 to 3 and back to 3
forever: with an iteration budget of 4, larger than the three-account
chart, and even with a budget of one million, the loop is still
running, so no iteration count bounded by the total number of accounts
covers it and the walk does not terminate at all. -/
theorem claim_C8_counterexample :
    walkStep cycleChart 1 ⟨2, 1, "B", .ASSET, 0, some 3, false, true, 0⟩ =
      .next ⟨3, 1, "C", .ASSET, 0, some 2, false, true, 0⟩ ∧
    walkStep cycleChart 1 ⟨3, 1, "C", .ASSET, 0, some 2, false, true, 0⟩ =
      .next ⟨2, 1, "B", .ASSET, 0, some 3, false, true, 0⟩ ∧
    walkParentChain cycleChart 1 4
      ⟨2, 1, "B", .ASSET, 0, some 3, false, true, 0⟩ = none ∧
    walkParentChain cycleChart 1 1000000
      ⟨2, 1, "B", .ASSET, 0, some 3, false, true, 0⟩ = none :=
  ⟨rfl, rfl, (cycleChart_loop_never_ends 4).1, (cycleChart_loop_never_ends 1000000).1⟩

lemma walkParentChain_terminates (accounts : List Account) (accountId : Nat)
    (r : Account → Nat)
    (hr : ∀ a ∈ accounts, ∀ pid, a.parentId = some pid → pid ≠ accountId →
      ∀ b, accounts.find? (fun x => x.id == pid) = some b → r b < r a) :
    ∀ fuel : Nat, ∀ cur ∈ accounts, r cur < fuel →
      walkParentChain accounts accountId fuel cur ≠ none := by
  intro fuel
  induction fuel with
  | zero => intro cur _ hrc; omega
  | succ k ih =>
    intro cur hcur hrc
    cases hpid : cur.parentId with
    | none => simp [walkParentChain, walkStep, hpid]
    | some pid =>
      by_cases hpa : pid = accountId
      · simp [walkParentChain, walkStep, hpid, hpa]
      · cases hfind : accounts.find? (fun a => a.id == pid) with
        | none => simp [walkParentChain, walkStep, hpid, hpa, hfind]
        | some b =>
          have hb : b ∈ accounts := List.mem_of_find?_eq_some hfind
          have hrb : r b < r cur := hr cur hcur pid hpid hpa b hfind
          have hred : walkParentChain accounts accountId (k + 1) cur =
              walkParentChain accounts accountId k b := by
            simp [walkParentChain, walkStep, hpid, hpa, hfind]
          rw [hred]
          exact ih b hb (by omega)

lemma walkParentChain_cycle_iff (accounts : List Account) (accountId : Nat)
    (r : Account → Nat)
    (hr : ∀ a ∈ accounts, ∀ pid, a.parentId = some pid → pid ≠ accountId →
      ∀ b, accounts.find? (fun x => x.id == pid) = some b → r b < r a) :
    ∀ fuel : Nat, ∀ cur ∈ accounts, r cur < fuel →
      (walkParentChain accounts accountId fuel cur =
          some (.error .circularParentReference) ↔
        ChainLeadsBack accounts accountId cur) := by
  intro fuel
  induction fuel with
  | zero => intro cur _ hrc; omega
  | succ k ih =>
    intro cur hcur hrc
    cases hpid : cur.parentId with
    | none =>
      simp only [walkParentChain, walkStep, hpid]
      constructor
      · intro h
        cases h
      · intro h
        cases h with
        | hit _ hp => rw [hpid] at hp; cases hp
        | step _ pid b hp _ _ _ => rw [hpid] at hp; cases hp
    | some pid =>
      by_cases hpa : pid = accountId
      · simp only [walkParentChain, walkStep, hpid, if_pos hpa]
        constructor
        · intro _
          exact ChainLeadsBack.hit cur (hpa ▸ hpid)
        · intro _
          trivial
      · cases hfind : accounts.find? (fun a => a.id == pid) with
        | none =>
          simp only [walkParentChain, walkStep, hpid, if_neg hpa, hfind]
          constructor
          · intro h
            cases h
          · intro h
            cases h with
            | hit _ hp =>
              rw [hpid] at hp
              injection hp with hp2
              exact absurd hp2 hpa
            | step _ pid2 b hp hne hf _ =>
              rw [hpid] at hp
              injection hp with hp2
              rw [← hp2] at hf
              rw [hf] at hfind
              cases hfind
        | some b =>
          have hb : b ∈ accounts := List.mem_of_find?_eq_some hfind
          have hrb : r b < r cur := hr cur hcur pid hpid hpa b hfind
          have hred : walkParentChain accounts accountId (k + 1) cur =
              walkParentChain accounts accountId k b := by
            simp [walkParentChain, walkStep, hpid, hpa, hfind]
          rw [hred, ih b hb (by omega)]
          constructor
          · intro h
            exact ChainLeadsBack.step cur pid b hpid hpa hfind h
          · intro h
            cases h with
            | hit _ hp =>
              rw [hpid] at hp
              injection hp with hp2
              exact absurd hp2 hpa
            | step _ pid2 b2 hp hne hf hc =>
              rw [hpid] at hp
              injection hp with hp2
              rw [← hp2] at hf
              rw [hf] at hfind
              injection hfind with hb2
              rw [← hb2]
              exact hc

/-- C8 amended: the cycle walk terminates whenever the existing parent
links admit a decreasing rank (an acyclic chart), within an iteration
budget of the total account count; within that budget it reports the
circular-reference error, of the InvalidArgument kind, exactly when
the proposed parent chain leads back to the account being updated.  On
a corrupted chart whose links form a cycle avoiding that account, the
walk does not terminate (see the counterexample). -/
theorem claim_C8_cycle_walk_amended (accounts : List Account)
    (accountId : Nat) (r : Account → Nat)
    (hr : ∀ a ∈ accounts, ∀ pid, a.parentId = some pid → pid ≠ accountId →
      ∀ b, accounts.find? (fun x => x.id == pid) = some b → r b < r a)
    (hrbound : ∀ a ∈ accounts, r a < accounts.length) :
    (∀ cur ∈ accounts,
      walkParentChain accounts accountId accounts.length cur ≠ none) ∧
    (∀ cur ∈ accounts,
      (walkParentChain accounts accountId accounts.length cur =
          some (.error .circularParentReference) ↔
        ChainLeadsBack accounts accountId cur)) ∧
    ApiError.circularParentReference.kind = .invalidArgument := by
  refine ⟨?_, ?_, rfl⟩
  · intro cur hcur
    exact walkParentChain_terminates accounts accountId r hr accounts.length
      cur hcur (hrbound cur hcur)
  · intro cur hcur
    exact walkParentChain_cycle_iff accounts accountId r hr accounts.length
      cur hcur (hrbound cur hcur)

/-- Witness for the amended C8: on an acyclic two-account chart the
walk from the child terminates within the account-count budget, and
when the child row points back at the account being updated the walk
reports the circular-reference error. -/
theorem claim_C8_witness :
    walkParentChain
        [⟨1, 1, "A", .ASSET, 0, none, false, true, 0⟩,
         ⟨2, 1, "B", .ASSET, 0, some 1, false, true, 0⟩] 3 2
        ⟨2, 1, "B", .ASSET, 0, some 1, false, true, 0⟩ ≠ none ∧
    walkParentChain
        [⟨2, 1, "B", .ASSET, 0, some 3, false, true, 0⟩] 3 1
        ⟨2, 1, "B", .ASSET, 0, some 3, false, true, 0⟩ =
      some (.error .circularParentReference) := by
  constructor
  · exact (claim_C8_cycle_walk_amended
      [⟨1, 1, "A", .ASSET, 0, none, false, true, 0⟩,
       ⟨2, 1, "B", .ASSET, 0, some 1, false, true, 0⟩] 3
      (fun a => if a.id = 1 then 0 else 1)
      (by decide) (by decide)).1
      ⟨2, 1, "B", .ASSET, 0, some 1, false, true, 0⟩ (by decide)
  · exact ((claim_C8_cycle_walk_amended
      [⟨2, 1, "B", .ASSET, 0, some 3, false, true, 0⟩] 3
      (fun _ => 0) (by decide) (by decide)).2.1
      ⟨2, 1, "B", .ASSET, 0, some 3, false, true, 0⟩ (by decide)).mpr
      (ChainLeadsBack.hit _ rfl)

/-- C9: under the provisioning invariant the spec states for system
accounts (system accounts are never inactive, and the tenant holds at
most one system account per sub-type), getSystemAccount returns
exactly the unique active system account of the tenant for the
sub-type, and fails with a NotFound-kind error exactly when no such
account is provisioned.  Determinism holds because the result is a
function of the store alone. -/
theorem claim_C9_system_account_lookup (st : Ledger) (companyId subType : Nat)
    (hActive : ∀ a ∈ st.accounts, a.isSystemAccount = true → a.isActive = true)
    (hUnique : ∀ a ∈ st.accounts, ∀ b ∈ st.accounts,
      a.companyId = companyId → a.subType = subType → a.isSystemAccount = true →
      b.companyId = companyId → b.subType = subType → b.isSystemAccount = true →
      a = b) :
    (∀ a : Account, getSystemAccount st companyId subType = .ok a →
      a ∈ st.accounts ∧ a.companyId = companyId ∧ a.subType = subType ∧
        a.isSystemAccount = true ∧ a.isActive = true ∧
        (∀ b ∈ st.accounts, b.companyId = companyId → b.subType = subType →
          b.isSystemAccount = true → b = a)) ∧
    ((∃ e, getSystemAccount st companyId subType = .error e ∧
        e.kind = .notFound) ↔
      ¬ ∃ a ∈ st.accounts, a.companyId = companyId ∧ a.subType = subType ∧
        a.isSystemAccount = true ∧ a.isActive = true) := by
  cases hfind : st.accounts.find? (fun a =>
      a.companyId == companyId && (a.subType == subType) && a.isSystemAccount) with
  | none =>
    have hnone := List.find?_eq_none.mp hfind
    constructor
    · intro a ha
      unfold getSystemAccount at ha
      rw [hfind] at ha
      cases ha
    · constructor
      · intro _ hex
        obtain ⟨a, ha, h1, h2, h3, _⟩ := hex
        exact absurd (by simp [h1, h2, h3]) (hnone a ha)
      · intro _
        exact ⟨.systemAccountNotFound subType, by
          unfold getSystemAccount
          rw [hfind], rfl⟩
  | some a =>
    have hmem : a ∈ st.accounts := List.mem_of_find?_eq_some hfind
    have hp := List.find?_some hfind
    have hps : a.companyId = companyId ∧ a.subType = subType ∧
        a.isSystemAccount = true := by
      have hps0 : (a.companyId = companyId ∧ a.subType = subType) ∧
          a.isSystemAccount = true := by
        simpa [Bool.and_eq_true] using hp
      exact ⟨hps0.1.1, hps0.1.2, hps0.2⟩
    have hact : a.isActive = true := hActive a hmem hps.2.2
    constructor
    · intro a2 ha2
      unfold getSystemAccount at ha2
      rw [hfind] at ha2
      injection ha2 with he
      rw [← he]
      refine ⟨hmem, hps.1, hps.2.1, hps.2.2, hact, ?_⟩
      intro b hb h1 h2 h3
      exact hUnique b hb a hmem h1 h2 h3 hps.1 hps.2.1 hps.2.2
    · constructor
      · rintro ⟨e, he, _⟩
        unfold getSystemAccount at he
        rw [hfind] at he
        cases he
      · intro hno
        exact absurd ⟨a, hmem, hps.1, hps.2.1, hps.2.2, hact⟩ hno

/-- Witness for C9: a store holding one active system receivable
account returns it, and the empty store yields the NotFound-kind
error. -/
theorem claim_C9_witness :
    ((⟨5, 1, "1100", .ASSET, 7, none, true, true, 0⟩ : Account) ∈
        [(⟨5, 1, "1100", .ASSET, 7, none, true, true, 0⟩ : Account)] ∧
      (1 : Nat) = 1 ∧ (7 : Nat) = 7 ∧ True = True ∧ True = True ∧
      (∀ b ∈ [(⟨5, 1, "1100", .ASSET, 7, none, true, true, 0⟩ : Account)],
        b.companyId = 1 → b.subType = 7 → b.isSystemAccount = true →
        b = ⟨5, 1, "1100", .ASSET, 7, none, true, true, 0⟩)) ∧
    (∃ e, getSystemAccount ⟨[], []⟩ 1 7 = .error e ∧ e.kind = .notFound) := by
  constructor
  · have h := (claim_C9_system_account_lookup
      ⟨[⟨5, 1, "1100", .ASSET, 7, none, true, true, 0⟩], []⟩ 1 7
      (by decide) (by decide)).1
      ⟨5, 1, "1100", .ASSET, 7, none, true, true, 0⟩
      (by with_unfolding_all decide)
    exact ⟨h.1, h.2.1 ▸ rfl, h.2.2.1 ▸ rfl, rfl, rfl, h.2.2.2.2.2⟩
  · exact (claim_C9_system_account_lookup ⟨[], []⟩ 1 7
      (by decide) (by decide)).2.mpr (by decide)

/-- C10: reverseJournalEntry fails, with the NotFound-kind error and
no store change, exactly when no entry with the id exists in the
tenant; for every entry the lookup does find, voided or reversing
alike (no condition on isPosted or isReversing), it succeeds and
appends a posted reversing entry whose swapped lines shift every
account balance by the sign-adjusted swapped amounts from the reversal
date onward. -/
theorem claim_C10_reverse_notfound_and_success (st : Ledger)
    (companyId userId entryId newId : Nat) (reverseDate : Int) :
    ((reverseJournalEntry st companyId userId entryId newId reverseDate =
        (.error .journalEntryNotFound, st) ∧
      ApiError.journalEntryNotFound.kind = .notFound) ↔
      ¬ ∃ p ∈ st.entries, p.1.id = entryId ∧ p.1.companyId = companyId) ∧
    (∀ E, st.entries.find?
        (fun p => p.1.id == entryId && p.1.companyId == companyId) = some E →
      reverseJournalEntry st companyId userId entryId newId reverseDate =
        (.ok (mkReversingEntry st companyId newId reverseDate E.1.id,
            swapLines E.2),
          ⟨st.accounts, st.entries ++
            [(mkReversingEntry st companyId newId reverseDate E.1.id,
              swapLines E.2)]⟩) ∧
      (mkReversingEntry st companyId newId reverseDate E.1.id).isPosted = true ∧
      (∀ (aid : Nat) (ty : AccountType) (d : Int), reverseDate ≤ d →
        calculateAccountBalanceAsOf
          ⟨st.accounts, st.entries ++
            [(mkReversingEntry st companyId newId reverseDate E.1.id,
              swapLines E.2)]⟩ aid ty d =
        calculateAccountBalanceAsOf st aid ty d +
          (if isDebitNormal ty = true then
            ((E.2.filter (fun l => l.accountId == aid)).map
              (fun l => l.credit)).sum -
              ((E.2.filter (fun l => l.accountId == aid)).map
                (fun l => l.debit)).sum
          else
            ((E.2.filter (fun l => l.accountId == aid)).map
              (fun l => l.debit)).sum -
              ((E.2.filter (fun l => l.accountId == aid)).map
                (fun l => l.credit)).sum))) := by
  constructor
  · cases hfind : st.entries.find?
        (fun p => p.1.id == entryId && p.1.companyId == companyId) with
    | none =>
      have hnone := List.find?_eq_none.mp hfind
      have hlhs : reverseJournalEntry st companyId userId entryId newId
          reverseDate = (.error .journalEntryNotFound, st) := by
        unfold reverseJournalEntry
        rw [hfind]
      constructor
      · rintro _ ⟨p, hp, h1, h2⟩
        exact absurd (by simp [h1, h2]) (hnone p hp)
      · intro _
        exact ⟨hlhs, rfl⟩
    | some E =>
      have hp := List.find?_some hfind
      have hmem : E ∈ st.entries := List.mem_of_find?_eq_some hfind
      have hps : E.1.id = entryId ∧ E.1.companyId = companyId := by
        simpa [Bool.and_eq_true] using hp
      constructor
      · rintro ⟨hcontra, _⟩
        unfold reverseJournalEntry at hcontra
        rw [hfind] at hcontra
        have := congrArg Prod.fst hcontra
        simp at this
      · intro hno
        exact absurd ⟨E, hmem, hps.1, hps.2⟩ hno
  · intro E hfind
    have hres : reverseJournalEntry st companyId userId entryId newId
        reverseDate =
        (.ok (mkReversingEntry st companyId newId reverseDate E.1.id,
            swapLines E.2),
          ⟨st.accounts, st.entries ++
            [(mkReversingEntry st companyId newId reverseDate E.1.id,
              swapLines E.2)]⟩) := by
      unfold reverseJournalEntry
      rw [hfind]
    refine ⟨hres, rfl, ?_⟩
    intro aid ty d hd
    rw [calcBalance_delta_form, calcBalance_delta_form]
    have hop : storedOpeningBalance
        ⟨st.accounts, st.entries ++
          [(mkReversingEntry st companyId newId reverseDate E.1.id,
            swapLines E.2)]⟩ aid = storedOpeningBalance st aid := rfl
    have hent : (Ledger.mk st.accounts (st.entries ++
        [(mkReversingEntry st companyId newId reverseDate E.1.id,
          swapLines E.2)])).entries = st.entries ++
        [(mkReversingEntry st companyId newId reverseDate E.1.id,
          swapLines E.2)] := rfl
    have hsing : ∀ f : JournalLine → Rat,
        entriesDelta [(mkReversingEntry st companyId newId reverseDate E.1.id,
          swapLines E.2)] aid d f =
          (((swapLines E.2).filter (fun l => l.accountId == aid)).map f).sum :=
      fun f => entriesDelta_singleton_posted _ aid d f rfl hd
    have hswapD :
        (((swapLines E.2).filter (fun l => l.accountId == aid)).map
          (fun l => l.debit)).sum =
          ((E.2.filter (fun l => l.accountId == aid)).map (fun l => l.credit)).sum :=
      swapLines_filter_sum E.2 aid _ _ (fun l => rfl)
    have hswapC :
        (((swapLines E.2).filter (fun l => l.accountId == aid)).map
          (fun l => l.credit)).sum =
          ((E.2.filter (fun l => l.accountId == aid)).map (fun l => l.debit)).sum :=
      swapLines_filter_sum E.2 aid _ _ (fun l => rfl)
    rcases hdn : isDebitNormal ty with _ | _ <;>
      simp only [hdn, Bool.false_eq_true, if_false, if_true, hop, hent,
        entriesDelta_append, hsing, hswapD, hswapC] <;>
      ring

/-- Witness for C10: reversing a voided entry succeeds and produces a
posted reversing entry; the empty store yields the NotFound error. -/
theorem claim_C10_witness :
    (reverseJournalEntry ⟨[], []⟩ 1 1 9 5 3 =
      (.error .journalEntryNotFound, ⟨[], []⟩) ∧
      ApiError.journalEntryNotFound.kind = .notFound) ∧
    (reverseJournalEntry
        ⟨[], [(⟨4, 1, 1, 0, .MANUAL, none, false, false, none⟩,
          [⟨1, 5, 0⟩, ⟨2, 0, 5⟩])]⟩ 1 1 4 9 3 =
      (.ok (mkReversingEntry
          ⟨[], [(⟨4, 1, 1, 0, .MANUAL, none, false, false, none⟩,
            [⟨1, 5, 0⟩, ⟨2, 0, 5⟩])]⟩ 1 9 3 4,
          swapLines [⟨1, 5, 0⟩, ⟨2, 0, 5⟩]),
        ⟨[], [(⟨4, 1, 1, 0, .MANUAL, none, false, false, none⟩,
            [⟨1, 5, 0⟩, ⟨2, 0, 5⟩])] ++
          [(mkReversingEntry
            ⟨[], [(⟨4, 1, 1, 0, .MANUAL, none, false, false, none⟩,
              [⟨1, 5, 0⟩, ⟨2, 0, 5⟩])]⟩ 1 9 3 4,
            swapLines [⟨1, 5, 0⟩, ⟨2, 0, 5⟩])]⟩) ∧
      (mkReversingEntry
        ⟨[], [(⟨4, 1, 1, 0, .MANUAL, none, false, false, none⟩,
          [⟨1, 5, 0⟩, ⟨2, 0, 5⟩])]⟩ 1 9 3 4).isPosted = true) := by
  constructor
  · exact (claim_C10_reverse_notfound_and_success ⟨[], []⟩ 1 1 9 5 3).1.mpr
      (by decide)
  · have h := (claim_C10_reverse_notfound_and_success
      ⟨[], [(⟨4, 1, 1, 0, .MANUAL, none, false, false, none⟩,
        [⟨1, 5, 0⟩, ⟨2, 0, 5⟩])]⟩ 1 1 4 9 3).2
      (⟨4, 1, 1, 0, .MANUAL, none, false, false, none⟩, [⟨1, 5, 0⟩, ⟨2, 0, 5⟩])
      (by with_unfolding_all decide)
    exact ⟨h.1, h.2.1⟩

end Booker

